import Mathlib

/-!
Verification of the client-side chart-data engine of the ai_universal_search
repository against its natural-language specification.

The development shallowly embeds the JavaScript code of the two modules under
scrutiny:
  * the ReportVisualization component (getChartData, aggregateValues alias
    _aggregateValues, getSampleData, getColor) and
  * the ReportDialog component (_addFieldsFromRecord, the default-field
    selectors, onVisualizationTypeChanged, onMeasureFieldChanged, onConfirm).

JavaScript runtime values are modelled by the inductive type JSVal below.
Machine floating point is modelled by exact rationals plus an explicit NaN
constructor; this is faithful for all integer and decimal-literal data that
the JSON payloads of this application carry.  Object identity is not
modelled: every object literal occurring in a JSON payload is a distinct
reference in JS, so two structurally distinct occurrences never compare
equal, which is exactly how the embedding treats all object-like values.
Code paths on which JavaScript would throw a TypeError (calling an array
method on a non-array, calling a string method on a non-string) are modelled
by Except, with error standing for the thrown exception.
-/

/-- A JavaScript runtime value as it can appear in the search-result payloads
and chart outputs of this code base.  num carries a non-NaN number as an
exact rational; nan is the number NaN; date iso is a Date object whose
toISOString would return iso; yearObj is a non-Date object exposing a
getFullYear method (mentioned by the spec for duck-typed date detection). -/
inductive JSVal where
  | num (q : ℚ)
  | nan
  | str (s : String)
  | bool (b : Bool)
  | null
  | undef
  | arr (elems : List JSVal)
  | obj (fields : List (String × JSVal))
  | date (iso : String)
  | yearObj

/-- JavaScript truthiness of a value: false, 0, NaN, empty string, null and
undefined are falsy; every object (including empty arrays and objects) is
truthy. -/
def jsTruthy : JSVal → Bool
  | .num q => decide (q ≠ 0)
  | .nan => false
  | .str s => decide (s ≠ "")
  | .bool b => b
  | .null => false
  | .undef => false
  | .arr _ => true
  | .obj _ => true
  | .date _ => true
  | .yearObj => true

/-- typeof v === "number" (NaN is a number in JS). -/
def typeofNumber : JSVal → Bool
  | .num _ => true
  | .nan => true
  | _ => false

/-- typeof v === "string". -/
def typeofString : JSVal → Bool
  | .str _ => true
  | _ => false

/-- v instanceof Date. -/
def isDateInstance : JSVal → Bool
  | .date _ => true
  | _ => false

/-- typeof v === "object" and v !== null and typeof v.getFullYear ===
"function": true for Date objects and for the duck-typed year-carrying
object; plain JSON objects and arrays carry no getFullYear method. -/
def hasGetFullYear : JSVal → Bool
  | .date _ => true
  | .yearObj => true
  | _ => false

/-- Object-like values (typeof "object" excluding null, plus arrays). -/
def isObjLike : JSVal → Bool
  | .arr _ => true
  | .obj _ => true
  | .date _ => true
  | .yearObj => true
  | _ => false

def isObj : JSVal → Bool
  | .obj _ => true
  | _ => false

def isStr : JSVal → Bool
  | .str _ => true
  | _ => false

/-- The string JS prints for a finite number.  JS prints decimals; the
embedding prints the exact integer for integral values and an exact
num/den form otherwise.  No claim below depends on the printed text of a
non-integer number. -/
def jsNumToString (q : ℚ) : String :=
  if q.den = 1 then toString q.num else toString q.num ++ "/" ++ toString q.den

mutual
/-- String(v): JS ToString.  A Date stringifies to a locale-style text that
never begins with four digits; the embedding uses a bracketed stand-in with
the same property.  Arrays stringify as the comma join of their elements
with null and undefined elements becoming empty (Array.prototype.join). -/
def jsString : JSVal → String
  | .num q => jsNumToString q
  | .nan => "NaN"
  | .str s => s
  | .bool b => if b then "true" else "false"
  | .null => "null"
  | .undef => "undefined"
  | .arr l => jsStringArr l
  | .obj _ => "[object Object]"
  | .date iso => "[Date " ++ iso ++ "]"
  | .yearObj => "[object Object]"

def jsStringArr : List JSVal → String
  | [] => ""
  | [v] => jsStringJoinElem v
  | v :: w :: rest => jsStringJoinElem v ++ "," ++ jsStringArr (w :: rest)

def jsStringJoinElem : JSVal → String
  | .null => ""
  | .undef => ""
  | .num q => jsNumToString q
  | .nan => "NaN"
  | .str s => s
  | .bool b => if b then "true" else "false"
  | .arr l => jsStringArr l
  | .obj _ => "[object Object]"
  | .date iso => "[Date " ++ iso ++ "]"
  | .yearObj => "[object Object]"
end

/-- Numeric value of a decimal digit. -/
def digitVal (c : Char) : ℕ := c.toNat - 48

def natOfDigits (ds : List Char) : ℕ :=
  ds.foldl (fun a c => a * 10 + digitVal c) 0

/-- Splits off the longest leading run of decimal digits. -/
def takeDigits : List Char → (List Char × List Char)
  | [] => ([], [])
  | c :: cs =>
    if c.isDigit then
      let p := takeDigits cs
      (c :: p.1, p.2)
    else ([], c :: cs)

def isWsChar (c : Char) : Bool :=
  c = ' ' || c = '\t' || c = '\n' || c = '\r'

/-- Leading sign; returns (negative?, rest). -/
def parseSign : List Char → (Bool × List Char)
  | '-' :: cs => (true, cs)
  | '+' :: cs => (false, cs)
  | cs => (false, cs)

/-- m * 10 ^ e as an exact rational, built with Rat.divInt so that it
evaluates inside the kernel. -/
def qpow10 (m : ℤ) (e : ℤ) : ℚ :=
  if 0 ≤ e then Rat.divInt (m * ((10 : ℤ) ^ e.toNat)) 1
  else Rat.divInt m ((10 : ℤ) ^ (-e).toNat)

/-- The optional exponent part accepted after a parseFloat mantissa: e or E,
optional sign, digits; an incomplete exponent contributes nothing, matching
how parseFloat stops at the first unusable character. -/
def parseExpPart : List Char → ℤ
  | c :: cs =>
    if c = 'e' || c = 'E' then
      let p := parseSign cs
      let d := takeDigits p.2
      if d.1.isEmpty then 0
      else if p.1 then -(natOfDigits d.1 : ℤ) else (natOfDigits d.1 : ℤ)
    else 0
  | [] => 0

/-- parseFloat on a string: skip leading whitespace, optional sign, decimal
digits with an optional fractional part and an optional exponent, ignoring
any trailing garbage; none models NaN (no digits found).  The Infinity
literal and non-decimal forms are not modelled; no payload in this code
base produces them. -/
def parseFloatStr (s : String) : Option ℚ :=
  let cs := (s.data.dropWhile isWsChar)
  let sg := parseSign cs
  let ip := takeDigits sg.2
  match ip.2 with
  | '.' :: cs3 =>
    let fp := takeDigits cs3
    if ip.1.isEmpty && fp.1.isEmpty then none
    else
      let mant : ℤ := (natOfDigits (ip.1 ++ fp.1) : ℤ)
      let mant := if sg.1 then -mant else mant
      some (qpow10 mant (parseExpPart fp.2 - (fp.1.length : ℤ)))
  | rest =>
    if ip.1.isEmpty then none
    else
      let mant : ℤ := (natOfDigits ip.1 : ℤ)
      let mant := if sg.1 then -mant else mant
      some (qpow10 mant (parseExpPart rest))

/-- parseFloat applied to an arbitrary value: the argument is first
converted with ToString.  A number round-trips to itself; NaN parses to
NaN. -/
def parseFloatVal : JSVal → Option ℚ
  | .num q => some q
  | .nan => none
  | v => parseFloatStr (jsString v)

/-- Exponent suffix for ToNumber: e or E, optional sign, digits, nothing
after; none when malformed. -/
def parseExpExact : List Char → Option ℤ
  | [] => some 0
  | c :: cs =>
    if c = 'e' || c = 'E' then
      let p := parseSign cs
      let dd := takeDigits p.2
      if dd.1.isEmpty || !dd.2.isEmpty then none
      else if p.1 then some (-(natOfDigits dd.1 : ℤ)) else some (natOfDigits dd.1 : ℤ)
    else none

/-- ToNumber on a string (used by loose equality): whitespace-only strings
convert to 0, otherwise the whole string must be a signed decimal literal,
optionally with a fractional part and exponent.  Hex, binary and Infinity
literals are not modelled; none occur in this code base. -/
def numberFromString (s : String) : Option ℚ :=
  let cs := s.data.dropWhile isWsChar
  let cs := (cs.reverse.dropWhile isWsChar).reverse
  if cs.isEmpty then some 0
  else
    let sg := parseSign cs
    let ip := takeDigits sg.2
    match ip.2 with
    | '.' :: cs3 =>
      let fp := takeDigits cs3
      if ip.1.isEmpty && fp.1.isEmpty then none
      else
        let mant : ℤ := (natOfDigits (ip.1 ++ fp.1) : ℤ)
        let mant := if sg.1 then -mant else mant
        match parseExpExact fp.2 with
        | some e => some (qpow10 mant (e - (fp.1.length : ℤ)))
        | none => none
    | rest =>
      if ip.1.isEmpty then none
      else
        let mant : ℤ := (natOfDigits ip.1 : ℤ)
        let mant := if sg.1 then -mant else mant
        match parseExpExact rest with
        | some e => some (qpow10 mant e)
        | none => none

/-- ToNumber on an arbitrary value; none models NaN.  Object-like values go
through ToPrimitive, which for the objects of this code base yields their
ToString. -/
def toNumberOpt : JSVal → Option ℚ
  | .num q => some q
  | .nan => none
  | .bool b => some (if b then 1 else 0)
  | .null => some 0
  | .undef => none
  | .str s => numberFromString s
  | v => numberFromString (jsString v)

/-- JS loose equality (the == operator) as it applies to the values of this
code base.  null and undefined equal only each other; two strings compare
as strings; two object references are never equal here because every object
occurrence in a JSON payload is a fresh reference (object identity is not
modelled); an object against a primitive is compared after ToPrimitive;
everything else falls back to numeric comparison, where NaN equals
nothing. -/
def jsLooseEq (a b : JSVal) : Bool :=
  match a, b with
  | .null, .null => true
  | .null, .undef => true
  | .undef, .null => true
  | .undef, .undef => true
  | .null, _ => false
  | _, .null => false
  | .undef, _ => false
  | _, .undef => false
  | .str x, .str y => x == y
  | a, b =>
    if isObjLike a && isObjLike b then false
    else
      let pa := if isObjLike a then JSVal.str (jsString a) else a
      let pb := if isObjLike b then JSVal.str (jsString b) else b
      match pa, pb with
      | .str x, .str y => x == y
      | x, y =>
        match toNumberOpt x, toNumberOpt y with
        | some p, some q => p == q
        | _, _ => false

/-- SameValueZero, the equality used by the Set constructor when it
deduplicates: structural on primitives with NaN equal to itself; object
references are never equal here for the same reason as in jsLooseEq. -/
def sameValueZero (a b : JSVal) : Bool :=
  match a, b with
  | .num x, .num y => x == y
  | .nan, .nan => true
  | .str x, .str y => x == y
  | .bool x, .bool y => x == y
  | .null, .null => true
  | .undef, .undef => true
  | _, _ => false

/-- First-occurrence deduplication against an accumulator of already seen
elements; models iterating a JS Set built from a list. -/
def dedupSeen (eq : α → α → Bool) : List α → List α → List α
  | _, [] => []
  | seen, x :: xs =>
    if seen.any (fun s => eq s x) then dedupSeen eq seen xs
    else x :: dedupSeen eq (seen ++ [x]) xs

/-- The spread of a Set built from a list: first occurrences in insertion
order, compared with SameValueZero. -/
def jsSetDedup (l : List JSVal) : List JSVal := dedupSeen sameValueZero [] l

/-- First-occurrence deduplication of strings (insertion order). -/
def firstDedup (l : List String) : List String := dedupSeen (fun a b => a == b) [] l

/-- s.toNat? over the character list (all decimal digits, non-empty), so
the kernel can evaluate it. -/
def strToNat? (s : String) : Option ℕ :=
  if s.data ≠ [] && s.data.all Char.isDigit then some (natOfDigits s.data) else none

/-- Property access v[k] for the string-named properties this code reads.
On objects it is assoc-list lookup; on arrays a canonical index key returns
the element.  Missing properties and properties of primitives are
undefined.  In JS, property access on null or undefined throws; the code
paths modelled here only access properties of values already known to be
truthy, except where a record element itself is null, which the theorems
below exclude by hypothesis. -/
def jget : JSVal → String → JSVal
  | .obj l, k =>
    match l.find? (fun p => p.1 == k) with
    | some p => p.2
    | none => .undef
  | .arr l, k =>
    match strToNat? k with
    | some i => if toString i == k then (l.get? i).getD .undef else .undef
    | none => .undef
  | _, _ => (.undef : JSVal)

/-- Computed property access v[e]: the key expression is converted with
ToString. -/
def jgetV (v : JSVal) (k : JSVal) : JSVal := jget v (jsString k)

/-- The value of the JS test v.length > 0 for the values that reach it in
this code: arrays and strings have a length; any other receiver yields
undefined, and undefined > 0 is false. -/
def jsLenGtZero : JSVal → Bool
  | .arr l => decide (l.length > 0)
  | .str s => decide (s.length > 0)
  | _ => false

/-- A canonical array-index property key (ascending group of Object.keys
ordering). -/
def isArrayIndexKey (s : String) : Bool :=
  match strToNat? s with
  | some n => toString n == s && decide (n < 4294967295)
  | none => false

/-- Insert into a Bool-ordered list before the first element that is not
below the inserted one; together with insertionSortB this is a stable
sort, and a stable sort is unique, so it models the required-stable JS
Array.prototype.sort regardless of the engine algorithm. -/
def orderedInsertB (le : α → α → Bool) (a : α) : List α → List α
  | [] => [a]
  | b :: l => if le a b then a :: b :: l else b :: orderedInsertB le a l

def insertionSortB (le : α → α → Bool) : List α → List α
  | [] => []
  | a :: l => orderedInsertB le a (insertionSortB le l)

/-- Lexicographic comparison of strings by character code, the comparison
used by the no-argument Array.prototype.sort; defined over the character
lists so the kernel can evaluate it. -/
def strLeList : List Char → List Char → Bool
  | [], _ => true
  | _ :: _, [] => false
  | a :: as, b :: bs =>
    if a.toNat < b.toNat then true
    else if b.toNat < a.toNat then false
    else strLeList as bs

def strLe (a b : String) : Bool := strLeList a.data b.data

/-- Object.keys ordering: canonical array-index keys first in ascending
numeric order, then the remaining string keys in insertion order.  The key
lists this is applied to are already duplicate-free. -/
def jsOwnKeysOrder (ks : List String) : List String :=
  insertionSortB (fun a b => Nat.ble ((strToNat? a).getD 0) ((strToNat? b).getD 0)) (ks.filter isArrayIndexKey)
    ++ ks.filter (fun k => !(isArrayIndexKey k))

/-- Object.keys applied to a built-up counter or group object: the
insertion-ordered distinct keys, reordered by the array-index rule. -/
def jsObjectKeys (ks : List String) : List String := jsOwnKeysOrder (firstDedup ks)

/-- The entries enumerated by a for..in loop or Object.entries over a
value: object entries in Object.keys order (first binding wins for the
duplicate keys that JSON cannot produce anyway), array and string elements
under their index keys, nothing for other primitives. -/
def jsEntries : JSVal → List (String × JSVal)
  | .obj l => (jsOwnKeysOrder (firstDedup (l.map Prod.fst))).map
      (fun k => (k, jget (.obj l) k))
  | .arr l => (List.range l.length).map (fun i => (toString i, (l.get? i).getD .undef))
  | .str s => (List.range s.length).map
      (fun i => (toString i, .str (String.mk ((s.data.get? i).elim [] (fun c => [c])))))
  | _ => []

/-- The regular expression test for an ISO date at the start of a string:
four digits, dash, two digits, dash, two digits. -/
def isoDateStart (s : String) : Bool :=
  match s.data with
  | a :: b :: c :: d :: s1 :: e :: f :: s2 :: g :: h :: _ =>
    a.isDigit && b.isDigit && c.isDigit && d.isDigit && s1 = '-'
      && e.isDigit && f.isDigit && s2 = '-' && g.isDigit && h.isDigit
  | _ => false

/-- Word characters of the title-casing regex (after underscores were
replaced there are no underscores left, so alphanumerics suffice). -/
def isWordChar (c : Char) : Bool := c.isAlphanum

def titleCaseChars : Bool → List Char → List Char
  | _, [] => []
  | prev, c :: cs =>
    (if isWordChar c && !prev then c.toUpper else c) :: titleCaseChars (isWordChar c) cs

/-- The display label the code derives from a field name: underscores
become spaces, then the first character of every word run is
upper-cased. -/
def fieldLabelOf (s : String) : String :=
  String.mk (titleCaseChars false (s.data.map (fun c => if c = '_' then ' ' else c)))

/-- needle occurs in haystack (String.prototype.includes), over character
lists. -/
def startsWithChars [BEq α] : List α → List α → Bool
  | [], _ => true
  | _ :: _, [] => false
  | a :: as, b :: bs => a == b && startsWithChars as bs

def infixOfChars [BEq α] : List α → List α → Bool
  | needle, [] => needle.isEmpty
  | needle, c :: cs => startsWithChars needle (c :: cs) || infixOfChars needle cs

def jsIncludes (s sub : String) : Bool := infixOfChars sub.data s.data

/-- s.endsWith(suf). -/
def strEndsWith (s suf : String) : Bool := startsWithChars suf.data.reverse s.data.reverse

/-- String.prototype.trim, over the character list so the kernel can
evaluate it. -/
def trimStr (s : String) : String :=
  String.mk (((s.data.dropWhile isWsChar).reverse.dropWhile isWsChar).reverse)

/-- s.split(sep)[0] for a single-character separator: the characters before
the first occurrence. -/
def splitFirst (s : String) (sep : Char) : String :=
  String.mk (s.data.takeWhile (fun c => c ≠ sep))

/-- Rational addition written with Rat.divInt so that the kernel can
evaluate it on concrete inputs; proved equal to ordinary addition below. -/
def qadd (a b : ℚ) : ℚ :=
  Rat.divInt (a.num * (b.den : ℤ) + b.num * (a.den : ℤ)) ((a.den : ℤ) * (b.den : ℤ))

/-- Rational division written with Rat.divInt; proved equal to ordinary
division below (both send division by zero to zero). -/
def qdiv (a b : ℚ) : ℚ :=
  Rat.divInt (a.num * (b.den : ℤ)) ((a.den : ℤ) * b.num)

theorem qadd_eq (a b : ℚ) : qadd a b = a + b := by
  have ha : ((a.den : ℚ)) ≠ 0 := by exact_mod_cast a.den_nz
  have hb : ((b.den : ℚ)) ≠ 0 := by exact_mod_cast b.den_nz
  conv_rhs => rw [← Rat.num_div_den a, ← Rat.num_div_den b]
  rw [div_add_div _ _ ha hb, qadd, Rat.divInt_eq_div]
  push_cast
  ring_nf

theorem qdiv_eq (a b : ℚ) : qdiv a b = a / b := by
  rcases eq_or_ne b 0 with rfl | hb
  · norm_num [qdiv]
  · have hbn : (b.num : ℚ) ≠ 0 := by exact_mod_cast Rat.num_ne_zero.mpr hb
    have ha : ((a.den : ℚ)) ≠ 0 := by exact_mod_cast a.den_nz
    have hbd : ((b.den : ℚ)) ≠ 0 := by exact_mod_cast b.den_nz
    conv_rhs => rw [← Rat.num_div_den a, ← Rat.num_div_den b]
    rw [qdiv, Rat.divInt_eq_div]
    push_cast
    field_simp

/-- The JS reduce((sum, v) => sum + v, 0). -/
def qsum (l : List ℚ) : ℚ := l.foldl qadd 0

theorem qsum_eq (l : List ℚ) : qsum l = l.sum := by
  suffices h : ∀ (x : ℚ), l.foldl qadd x = x + l.sum by
    simpa [qsum] using h 0
  induction l with
  | nil => intro x; simp
  | cons a t ih => intro x; simp [List.foldl_cons, qadd_eq, ih, add_assoc]

/-- A number-or-NaN intermediate result turned back into a value. -/
def optNumToJS : Option ℚ → JSVal
  | some q => .num q
  | none => .nan

/-- v === s for a string literal s (strict equality against a string). -/
def strictEqStr (v : JSVal) (s : String) : Bool :=
  match v with
  | .str t => t == s
  | _ => false

/-- v === true. -/
def strictEqTrue : JSVal → Bool
  | .bool true => true
  | _ => false

/-- a || b. -/
def jsOrDefault (a b : JSVal) : JSVal := if jsTruthy a then a else b

/-- The numeric coercion of the visualization component: a number passes
through (including NaN), the first element of a non-empty array is parsed
with a fallback of 0, anything else is parsed with a fallback of 0.  The
result is none exactly when the JS result is NaN, which happens only for a
field value that is itself the number NaN, because every failed parse is
coalesced to 0 by the trailing or-0. -/
def jsCoerceNum : JSVal → Option ℚ
  | .num q => some q
  | .nan => none
  | .arr (x :: _) => some ((parseFloatVal x).getD 0)
  | v => some ((parseFloatVal v).getD 0)

/-- Source: _aggregateValues(records, field, aggregationType) of the
ReportVisualization component.  Returns the aggregated value as a JS
number (possibly NaN, for the none kind applied to a NaN field value). -/
def aggregateValues (records : List JSVal) (field : JSVal) (aggregationType : JSVal) : JSVal :=
  match records with
  | [] => JSVal.num 0
  | r0 :: _ =>
    if strictEqStr aggregationType "none" then
      optNumToJS (jsCoerceNum (jgetV r0 field))
    else if strictEqStr aggregationType "count" then
      JSVal.num (records.length : ℚ)
    else
      let numericValues := (records.map (fun r => jsCoerceNum (jgetV r field))).filterMap id
      match numericValues with
      | [] => JSVal.num 0
      | v0 :: vrest =>
        if strictEqStr aggregationType "sum" then
          JSVal.num (qsum (v0 :: vrest))
        else if strictEqStr aggregationType "average" then
          JSVal.num (qdiv (qsum (v0 :: vrest)) (((v0 :: vrest).length : ℕ) : ℚ))
        else if strictEqStr aggregationType "min" then
          JSVal.num (vrest.foldl min v0)
        else if strictEqStr aggregationType "max" then
          JSVal.num (vrest.foldl max v0)
        else
          JSVal.num (records.length : ℚ)

/-- The fixed ten-colour palette of getColor. -/
def colorPalette : List String :=
  ["rgba(75, 192, 192, 0.8)", "rgba(255, 99, 132, 0.8)", "rgba(54, 162, 235, 0.8)",
   "rgba(255, 206, 86, 0.8)", "rgba(153, 102, 255, 0.8)", "rgba(255, 159, 64, 0.8)",
   "rgba(240, 240, 240, 0.8)", "rgba(220, 220, 220, 0.8)", "rgba(200, 200, 200, 0.8)",
   "rgba(180, 180, 180, 0.8)"]

/-- Source: getColor(index, total); the total argument is accepted and
ignored, as in the source. -/
def getColor (index : ℕ) (_total : ℕ) : String :=
  (colorPalette.get? (index % colorPalette.length)).getD ""

/-- One-shot string replacement (String.prototype.replace with a string
pattern replaces only the first occurrence). -/
def replaceFirstChars [BEq α] (pat rep : List α) : List α → List α
  | [] => []
  | c :: cs =>
    if startsWithChars pat (c :: cs) then rep ++ (c :: cs).drop pat.length
    else c :: replaceFirstChars pat rep cs

def jsReplaceFirst (s pat rep : String) : String :=
  String.mk (replaceFirstChars pat.data rep.data s.data)

/-- Index-carrying map (Array.prototype.map with the index argument). -/
def mapWithIndexFrom (f : ℕ → α → β) : ℕ → List α → List β
  | _, [] => []
  | i, a :: l => f i a :: mapWithIndexFrom f (i + 1) l

def mapWithIndex (f : ℕ → α → β) (l : List α) : List β := mapWithIndexFrom f 0 l

/-- The background colour expression shared by the single-dataset outputs:
for pie charts one palette colour per label, otherwise a fixed
translucent teal. -/
def stdBackground (visualizationType : String) (labelCount : ℕ) : JSVal :=
  if visualizationType == "pie" then
    .arr ((List.range labelCount).map (fun i => JSVal.str (getColor i labelCount)))
  else .str "rgba(75, 192, 192, 0.2)"

/-- Source: getSampleData(visualizationType); the darkMode flag stands for
the color-scheme cookie read by the source. -/
def getSampleData (visualizationType : String) (darkMode : Bool) : JSVal :=
  let labels : List JSVal :=
    [.str "Sample A", .str "Sample B", .str "Sample C", .str "Sample D", .str "Sample E"]
  if visualizationType == "pie" then
    .obj [("labels", .arr labels),
          ("datasets", .arr [ .obj [
            ("label", .str "Sample Data"),
            ("data", .arr [.num 30, .num 20, .num 25, .num 15, .num 10]),
            ("backgroundColor", .arr [
              .str "rgba(255, 99, 132, 0.8)", .str "rgba(54, 162, 235, 0.8)",
              .str "rgba(255, 206, 86, 0.8)", .str "rgba(75, 192, 192, 0.8)",
              .str "rgba(153, 102, 255, 0.8)"]),
            ("borderWidth", .num 1),
            ("borderColor", .str (if darkMode then "#222" else "#fff"))]])]
  else
    .obj [("labels", .arr labels),
          ("datasets", .arr [ .obj [
            ("label", .str "Sample Dataset"),
            ("data", .arr [.num 30, .num 20, .num 25, .num 15, .num 10]),
            ("backgroundColor", .str "rgba(75, 192, 192, 0.2)"),
            ("borderColor", .str "rgba(75, 192, 192, 1)"),
            ("borderWidth", .num 1),
            ("fill", if visualizationType == "line" then .bool false else .undef),
            ("tension", if visualizationType == "line" then .num (mkRat 1 10) else .undef)]])]

/-- Technical fields the visualization skips: id, has_linked_data and
names ending in _info. -/
def technicalField (f : String) : Bool :=
  f == "id" || f == "has_linked_data" || strEndsWith f "_info"

/-- The date-shape test used on first-record values: ISO prefix on the
ToString, a Date instance, or a non-null object with a getFullYear
method. -/
def dateShapedVal (v : JSVal) : Bool :=
  isoDateStart (jsString v) || isDateInstance v || hasGetFullYear v

/-- The label text the grouped and legacy paths derive from a dimension
value: String(value), except that undefined becomes empty (null is NOT
special-cased here and prints as the text null). -/
def legacyLabel (v : JSVal) : JSVal :=
  match v with
  | .undef => .str ""
  | v => .str (jsString v)

/-- The label text of the stacked path: both undefined and null become
empty. -/
def stackedLabel (v : JSVal) : JSVal :=
  match v with
  | .undef => .str ""
  | .null => .str ""
  | v => .str (jsString v)

/-- Source: the stacked-bar branch of the chart-definition path of
getChartData.  One dataset per distinct series value; every point is the
selected aggregation of the records whose dimension and series values
loosely equal the respective distinct values, and 0 when no record
matches. -/
def stackedFromDef (records : List JSVal) (dimensionField seriesField measureField aggregationType : JSVal) : JSVal :=
  let dimensionValues := jsSetDedup (records.map (fun r => jgetV r dimensionField))
  let seriesValues := jsSetDedup (records.map (fun r => jgetV r seriesField))
  let labels := dimensionValues.map stackedLabel
  let datasets := mapWithIndex (fun index sv =>
    let seriesData := dimensionValues.map (fun dv =>
      let matching := records.filter (fun r =>
        jsLooseEq (jgetV r dimensionField) dv && jsLooseEq (jgetV r seriesField) sv)
      if matching.length > 0 then aggregateValues matching measureField aggregationType
      else JSVal.num 0)
    JSVal.obj [
      ("label", if jsTruthy sv then .str (jsString sv)
                else .str ("Series " ++ toString (index + 1))),
      ("data", .arr seriesData),
      ("backgroundColor", .str (getColor index seriesValues.length)),
      ("borderColor", .str (jsReplaceFirst (getColor index seriesValues.length) "0.8" "1")),
      ("borderWidth", .num 1)]) seriesValues
  .obj [("labels", .arr labels), ("datasets", .arr datasets)]

/-- The grouping key of the non-stacked chart-definition path: String of
the dimension value with undefined and null both mapped to empty. -/
def groupKey (v : JSVal) : String :=
  match v with
  | .undef => ""
  | .null => ""
  | v => jsString v

/-- Appends a record to its group, preserving first-occurrence key
order. -/
def pushGroup (key : String) (r : JSVal) : List (String × List JSVal) → List (String × List JSVal)
  | [] => [(key, [r])]
  | (k, g) :: rest =>
    if k == key then (k, g ++ [r]) :: rest else (k, g) :: pushGroup key r rest

def groupRecordsByDim (records : List JSVal) (dimensionField : JSVal) : List (String × List JSVal) :=
  records.foldl (fun acc r => pushGroup (groupKey (jgetV r dimensionField)) r acc) []

def lookupGroup (groups : List (String × List JSVal)) (k : String) : List JSVal :=
  ((groups.find? (fun p => p.1 == k)).map Prod.snd).getD []

/-- Source: the regular (not stacked) branch of the chart-definition path:
group records by dimension value, aggregate the measure per group, one
dataset.  Labels come from Object.keys, hence the array-index key
reordering.  Calling replace on a non-string measure field throws. -/
def groupedFromDef (records : List JSVal) (dimensionField measureField aggregationType : JSVal) (visualizationType : String) : Except Unit JSVal :=
  let groups := groupRecordsByDim records dimensionField
  let labels := jsOwnKeysOrder (groups.map Prod.fst)
  let values := labels.map (fun l => aggregateValues (lookupGroup groups l) measureField aggregationType)
  match measureField with
  | .str mf =>
    .ok (.obj [("labels", .arr (labels.map JSVal.str)),
      ("datasets", .arr [ .obj [
        ("label", .str (fieldLabelOf mf)),
        ("data", .arr values),
        ("backgroundColor", stdBackground visualizationType labels.length),
        ("borderColor", .str "rgba(75, 192, 192, 1)"),
        ("borderWidth", .num 1)]])])
  | _ => .error ()

/-- The inline summation coercion of the legacy stacked path: a number
passes through (including NaN), everything else is parsed with a fallback
of 0; note there is no array case here, unlike jsCoerceNum. -/
def legacySumCoerce : JSVal → Option ℚ
  | .num q => some q
  | .nan => none
  | v => some ((parseFloatVal v).getD 0)

/-- Source: the stacked-bar branch of the legacy config path: like the
chart-definition stacked branch, but every point is the plain sum of the
coerced measure values (NaN poisons the sum). -/
def legacyStacked (records : List JSVal) (dimensionField seriesField measureField : JSVal) : JSVal :=
  let dimensionValues := jsSetDedup (records.map (fun r => jgetV r dimensionField))
  let seriesValues := jsSetDedup (records.map (fun r => jgetV r seriesField))
  let labels := dimensionValues.map stackedLabel
  let datasets := mapWithIndex (fun index sv =>
    let seriesData := dimensionValues.map (fun dv =>
      let matching := records.filter (fun r =>
        jsLooseEq (jgetV r dimensionField) dv && jsLooseEq (jgetV r seriesField) sv)
      if matching.length > 0 then
        optNumToJS (matching.foldl (fun acc r =>
          match acc, legacySumCoerce (jgetV r measureField) with
          | some s, some v => some (qadd s v)
          | _, _ => none) (some 0))
      else JSVal.num 0)
    JSVal.obj [
      ("label", if jsTruthy sv then .str (jsString sv)
                else .str ("Series " ++ toString (index + 1))),
      ("data", .arr seriesData),
      ("backgroundColor", .str (getColor index seriesValues.length)),
      ("borderColor", .str (jsReplaceFirst (getColor index seriesValues.length) "0.8" "1")),
      ("borderWidth", .num 1)]) seriesValues
  .obj [("labels", .arr labels), ("datasets", .arr datasets)]

/-- Source: the regular (not stacked) branch of the legacy config path:
one label and one value PER RECORD (no grouping, no aggregation); the
value is the number passthrough, first-array-element parse, or numeric
parse with fallback 0 (exactly jsCoerceNum).  Calling replace on a
non-string measure field throws. -/
def legacyPlain (records : List JSVal) (dimensionField measureField : JSVal) (visualizationType : String) : Except Unit JSVal :=
  let labels := records.map (fun r => legacyLabel (jgetV r dimensionField))
  let values := records.map (fun r => optNumToJS (jsCoerceNum (jgetV r measureField)))
  match measureField with
  | .str mf =>
    .ok (.obj [("labels", .arr labels),
      ("datasets", .arr [ .obj [
        ("label", .str (fieldLabelOf mf)),
        ("data", .arr values),
        ("backgroundColor", stdBackground visualizationType labels.length),
        ("borderColor", .str "rgba(75, 192, 192, 1)"),
        ("borderWidth", .num 1)]])])
  | _ => .error ()

/-- Source: the aggregation-result shape: labels and values read directly
off the records under the payload-named dimension and measure keys, with
falsy measure values replaced by 0, and the dataset label upgraded from
field_descriptions when a description of the dimension field is
present. -/
def aggregationRuleOut (records : List JSVal) (dimensionField measureField fieldDescriptions : JSVal) (visualizationType : String) : JSVal :=
  let labels := records.map (fun r => legacyLabel (jgetV r dimensionField))
  let values := records.map (fun r => jsOrDefault (jgetV r measureField) (.num 0))
  let datasetLabel :=
    if jsTruthy fieldDescriptions && jsTruthy (jgetV fieldDescriptions dimensionField) then
      jgetV fieldDescriptions dimensionField
    else measureField
  .obj [("labels", .arr labels),
    ("datasets", .arr [ .obj [
      ("label", datasetLabel),
      ("data", .arr values),
      ("backgroundColor", stdBackground visualizationType labels.length),
      ("borderColor", .str "rgba(75, 192, 192, 1)"),
      ("borderWidth", .num 1)]])]

/-- The per-model record count used to pick the primary model: the length
when records is an array, otherwise 0. -/
def recCountOf (m : JSVal) : ℕ :=
  match jget m "records" with
  | .arr l => l.length
  | _ => 0

/-- The first non-technical date-shaped field of a first record, in for..in
order. -/
def findDateField (r0 : JSVal) : Option String :=
  ((jsEntries r0).find? (fun p => !technicalField p.1 && dateShapedVal p.2)).map Prod.fst

/-- The first non-technical string-valued field of a first record. -/
def findLabelField (r0 : JSVal) : Option String :=
  ((jsEntries r0).find? (fun p => !technicalField p.1 && typeofString p.2)).map Prod.fst

/-- The date-normalisation applied to each record before bucketing: a Date
keeps the date part of its ISO string, a string keeps what precedes the
first T and then the first space, any other non-null object is stringified
and trimmed the same way, and everything else is left unchanged. -/
def processDateValue (v : JSVal) : JSVal :=
  match v with
  | .date iso => .str (splitFirst iso 'T')
  | .str s => .str (splitFirst (splitFirst s 'T') ' ')
  | .arr l => .str (splitFirst (splitFirst (jsString (.arr l)) 'T') ' ')
  | .obj l => .str (splitFirst (splitFirst (jsString (.obj l)) 'T') ' ')
  | .yearObj => .str (splitFirst (splitFirst (jsString .yearObj) 'T') ' ')
  | v => v

/-- Increments the counter stored under a key, appending new keys. -/
def bumpCount (k : String) : List (String × ℕ) → List (String × ℕ)
  | [] => [(k, 1)]
  | (k0, n) :: rest =>
    if k0 == k then (k0, n + 1) :: rest else (k0, n) :: bumpCount k rest

/-- The dateCounts object: occurrences per normalised date value, skipping
records whose normalised value is falsy (missing fields, empty strings). -/
def dateBuckets (records : List JSVal) (dateField : String) : List (String × ℕ) :=
  records.foldl (fun acc r =>
    let dv := processDateValue (jget r dateField)
    if jsTruthy dv then bumpCount (jsString dv) acc else acc) []

/-- The labelCounts object of the no-date fallback: occurrences per truthy
label value, keyed by its ToString. -/
def labelBuckets (records : List JSVal) (labelField : String) : List (String × ℕ)  :=
  records.foldl (fun acc r =>
    let lv := jget r labelField
    if jsTruthy lv then bumpCount (jsString lv) acc else acc) []

def lookupCount (buckets : List (String × ℕ)) (k : String) : Option ℕ :=
  (buckets.find? (fun p => p.1 == k)).map Prod.snd

/-- keys.map(k => counts[k]) on a counter object. -/
def countsFor (keys : List String) (buckets : List (String × ℕ)) : List JSVal :=
  keys.map (fun k =>
    match lookupCount buckets k with
    | some n => JSVal.num (n : ℚ)
    | none => JSVal.undef)

/-- A one-dataset output whose labels are strings and whose data are the
given values. -/
def singleDatasetOut (datasetLabel : JSVal) (labels : List String) (data : List JSVal) (visualizationType : String) : JSVal :=
  .obj [("labels", .arr (labels.map JSVal.str)),
    ("datasets", .arr [ .obj [
      ("label", datasetLabel),
      ("data", .arr data),
      ("backgroundColor", stdBackground visualizationType labels.length),
      ("borderColor", .str "rgba(75, 192, 192, 1)"),
      ("borderWidth", .num 1)]])]

/-- The output of the preprocessed _dateAggregation branch: the stored
dates become the labels and the stored counts the data, both passed
through untouched. -/
def preAggOut (pm : JSVal) (dates : List JSVal) (counts : JSVal) (visualizationType : String) : JSVal :=
  .obj [("labels", .arr dates),
    ("datasets", .arr [ .obj [
      ("label", .str (jsString (jget pm "model_label") ++ " by Date")),
      ("data", counts),
      ("backgroundColor",
        if visualizationType == "pie" then
          .arr ((List.range dates.length).map (fun i => JSVal.str (getColor i dates.length)))
        else .str "rgba(75, 192, 192, 0.2)"),
      ("borderColor", .str "rgba(75, 192, 192, 1)"),
      ("borderWidth", .num 1)]])]

/-- Variant of the preprocessed branch reached when the stored dates value
is a non-empty string rather than an array (possible in a malformed
payload): the string is used as the labels value verbatim; for pie charts
JS would instead throw calling map on it, which the caller handles. -/
def preAggOutRaw (pm : JSVal) (dates : JSVal) (counts : JSVal) : JSVal :=
  .obj [("labels", dates),
    ("datasets", .arr [ .obj [
      ("label", .str (jsString (jget pm "model_label") ++ " by Date")),
      ("data", counts),
      ("backgroundColor", .str "rgba(75, 192, 192, 0.2)"),
      ("borderColor", .str "rgba(75, 192, 192, 1)"),
      ("borderWidth", .num 1)]])]

/-- Chains the ordered resolution rules of getChartData: a rule either
throws, returns an output, or falls through to the rest of the chain. -/
def stepOr (step : Except Unit (Option JSVal)) (rest : Except Unit JSVal) : Except Unit JSVal :=
  match step with
  | .error e => .error e
  | .ok (some out) => .ok out
  | .ok none => rest

/-- The shared records-locating snippet of the chart-definition and legacy
paths: for a multi-model payload the records of the first model with a
non-empty records value, else the records key, else an empty list.
Calling find on a truthy non-array results value throws. -/
def resolveRecords (searchResults : JSVal) : Except Unit JSVal :=
  if jsTruthy (jget searchResults "multi_model") && jsTruthy (jget searchResults "results") then
    match jget searchResults "results" with
    | .arr models =>
      match models.find? (fun m => jsTruthy (jget m "records") && jsLenGtZero (jget m "records")) with
      | some m => .ok (jget m "records")
      | none => .ok (.arr [])
    | _ => .error ()
  else if jsTruthy (jget searchResults "records") then .ok (jget searchResults "records")
  else .ok (.arr [])

/-- Source: PRIORITY 1 of getChartData, the chart-definition path.  A
non-empty-string records value passes the length test but throws at the
first array method. -/
def stepChartDef (searchResults : JSVal) (config : JSVal) (visualizationType : String) : Except Unit (Option JSVal) :=
  let chartDefinition := jget searchResults "chartDefinition"
  if jsTruthy chartDefinition then
    let dimensionField := jget chartDefinition "dimensionField"
    let measureField := jget chartDefinition "measureField"
    let aggregationType := jsOrDefault (jget chartDefinition "aggregationType") (.str "count")
    let seriesField := jget chartDefinition "seriesField"
    match resolveRecords searchResults with
    | .error e => .error e
    | .ok recordsVal =>
      if jsLenGtZero recordsVal && jsTruthy dimensionField then
        match recordsVal with
        | .arr records =>
          if visualizationType == "bar" && jsTruthy (jget config "stacked") && jsTruthy seriesField then
            .ok (some (stackedFromDef records dimensionField seriesField measureField aggregationType))
          else
            match groupedFromDef records dimensionField measureField aggregationType visualizationType with
            | .ok out => .ok (some out)
            | .error e => .error e
        | _ => .error ()
      else .ok none
  else .ok none

/-- Source: PRIORITY 2 of getChartData, the legacy config path, taken only
when no chart definition is present and the config carries both field
selections. -/
def stepLegacy (searchResults : JSVal) (config : JSVal) (visualizationType : String) : Except Unit (Option JSVal) :=
  let chartDefinition := jget searchResults "chartDefinition"
  if !(jsTruthy chartDefinition) && jsTruthy (jget config "dimensionField")
      && jsTruthy (jget config "measureField") then
    match resolveRecords searchResults with
    | .error e => .error e
    | .ok recordsVal =>
      if jsLenGtZero recordsVal then
        let dimensionField := jget config "dimensionField"
        let measureField := jget config "measureField"
        match recordsVal with
        | .arr records =>
          if visualizationType == "bar" && jsTruthy (jget config "stacked")
              && jsTruthy (jget config "seriesField") then
            .ok (some (legacyStacked records dimensionField (jget config "seriesField") measureField))
          else
            match legacyPlain records dimensionField measureField visualizationType with
            | .ok out => .ok (some out)
            | .error e => .error e
        | _ => .error ()
      else .ok none
  else .ok none

/-- Source: the aggregation-result rule of getChartData (aggregation ===
true). -/
def stepAggregation (searchResults : JSVal) (visualizationType : String) : Except Unit (Option JSVal) :=
  if strictEqTrue (jget searchResults "aggregation") then
    let dimensionField := jget searchResults "dimension"
    let measureField := jget searchResults "measure"
    if jsTruthy dimensionField && jsTruthy measureField
        && jsTruthy (jget searchResults "records") && jsLenGtZero (jget searchResults "records") then
      match jget searchResults "records" with
      | .arr records =>
        .ok (some (aggregationRuleOut records dimensionField measureField
          (jget searchResults "field_descriptions") visualizationType))
      | _ => .error ()
    else .ok none
  else .ok none

/-- Source: the multi-model rule of getChartData (multi_model === true):
prefer a model with a precomputed _dateAggregation, else pick the model
with the most records (stable descending sort), bucket by date when a
date-shaped field exists in its first record, else count by the first
string field; fall through when none of that produces output. -/
def stepMultiModel (searchResults : JSVal) (visualizationType : String) (darkMode : Bool) : Except Unit (Option JSVal) :=
  if strictEqTrue (jget searchResults "multi_model") && jsTruthy (jget searchResults "results") then
    match jget searchResults "results" with
    | .arr models =>
      if models.isEmpty then .ok (some (getSampleData visualizationType darkMode))
      else
        let preStep : Except Unit (Option JSVal) :=
          match models.find? (fun m => jsTruthy (jget m "_dateAggregation")) with
          | some pm =>
            let aggregation := jget pm "_dateAggregation"
            match jget aggregation "dates" with
            | .null => .error ()
            | .undef => .error ()
            | .arr dates =>
              if dates.length > 0 then
                .ok (some (preAggOut pm dates (jget aggregation "counts") visualizationType))
              else .ok none
            | .str s =>
              if s.length > 0 then
                if visualizationType == "pie" then .error ()
                else .ok (some (preAggOutRaw pm (.str s) (jget aggregation "counts")))
              else .ok none
            | _ => .ok none
          | none => .ok none
        match preStep with
        | .error e => .error e
        | .ok (some out) => .ok (some out)
        | .ok none =>
          let sortedModels := insertionSortB (fun a b => Nat.ble (recCountOf b) (recCountOf a)) models
          match sortedModels with
          | [] => .ok (some (getSampleData visualizationType darkMode))
          | pm :: _ =>
            if !(jsTruthy (jget pm "records") && jsLenGtZero (jget pm "records")) then
              .ok (some (getSampleData visualizationType darkMode))
            else
              match jget pm "records" with
              | .arr [] => .ok (some (getSampleData visualizationType darkMode))
              | .arr (r0 :: rest) =>
                let records := r0 :: rest
                match findDateField r0 with
                | some dateField =>
                  let buckets := dateBuckets records dateField
                  let dates := insertionSortB strLe (jsObjectKeys (buckets.map Prod.fst))
                  if dates.isEmpty then .ok none
                  else
                    match jsOrDefault (jget pm "model_label") (jsOrDefault (jget pm "model") (.str "")) with
                    | .str name =>
                      let datasetLabel :=
                        if jsIncludes name "log" then "User Login Count" else name ++ " Count"
                      .ok (some (singleDatasetOut (.str datasetLabel) dates (countsFor dates buckets) visualizationType))
                    | _ => .error ()
                | none =>
                  match findLabelField r0 with
                  | some labelField =>
                    let buckets := labelBuckets records labelField
                    let labels := jsObjectKeys (buckets.map Prod.fst)
                    if labels.isEmpty then .ok none
                    else
                      let modelName := jsOrDefault (jget pm "model_label") (jsOrDefault (jget pm "model") (.str ""))
                      .ok (some (singleDatasetOut (.str (jsString modelName ++ " by " ++ labelField))
                        labels (countsFor labels buckets) visualizationType))
                  | none => .ok none
              | _ => .error ()
    | _ => .ok (some (getSampleData visualizationType darkMode))
  else .ok none

/-- The label-and-value field scan of the plain-records rule: one pass over
the first-record entries in for..in order; a field already claimed as the
label is not considered for the value (else-if), technical fields are
skipped entirely. -/
def scanLabelValue : List (String × JSVal) → Option String × Option String → Option String × Option String
  | [], acc => acc
  | (f, v) :: rest, (lf, vf) =>
    if technicalField f then scanLabelValue rest (lf, vf)
    else if lf.isNone && (typeofString v
        || (isObjLike v && (isDateInstance v || hasGetFullYear v || isoDateStart (jsString v)))) then
      scanLabelValue rest (some f, vf)
    else if vf.isNone && (typeofNumber v || (parseFloatVal v).isSome
        || (match v with
            | .arr (x :: _) => typeofNumber x || (parseFloatVal x).isSome
            | _ => false)) then
      scanLabelValue rest (lf, some f)
    else scanLabelValue rest (lf, vf)

/-- A found field name is usable only when truthy (the empty string fails
the if test in the source). -/
def nameTruthy : Option String → Bool
  | some s => decide (s ≠ "")
  | none => false

/-- The value extraction of the plain-records rule: first array element or
numeric parse with NO fallback, so a failed parse stays NaN here. -/
def rule6Value (v : JSVal) : JSVal :=
  match v with
  | .arr (x :: _) => optNumToJS (parseFloatVal x)
  | .num q => .num q
  | .nan => .nan
  | v => optNumToJS (parseFloatVal v)

/-- The date scan of the plain-records fallback: unlike the multi-model
scan, this loop does NOT skip technical fields. -/
def findDateFieldNoSkip (r0 : JSVal) : Option String :=
  ((jsEntries r0).find? (fun p => dateShapedVal p.2)).map Prod.fst

/-- Source: the plain-records rule of getChartData: pick a label-capable
and a value-capable field from the first record and emit one point per
record; if no value field exists but a date-shaped field does, degrade to
count-by-date-bucket.  A non-empty string under the records key never
reaches an array method on this path: its first element is a one-character
string whose only enumerable entry is itself a string, so only the label
field can be found and the date scan fails, hence the rule falls
through. -/
def stepPlainRecords (searchResults : JSVal) (visualizationType : String) : Except Unit (Option JSVal) :=
  if jsTruthy (jget searchResults "records") && jsLenGtZero (jget searchResults "records") then
    match jget searchResults "records" with
    | .arr [] => .ok none
    | .arr (r0 :: rest) =>
      let records := r0 :: rest
      let scan := scanLabelValue (jsEntries r0) (none, none)
      if nameTruthy scan.1 && nameTruthy scan.2 then
        match scan.1, scan.2 with
        | some labelField, some valueField =>
          .ok (some (.obj [
            ("labels", .arr (records.map (fun r => legacyLabel (jget r labelField)))),
            ("datasets", .arr [ .obj [
              ("label", .str valueField),
              ("data", .arr (records.map (fun r => rule6Value (jget r valueField)))),
              ("backgroundColor", stdBackground visualizationType records.length),
              ("borderColor", .str "rgba(75, 192, 192, 1)"),
              ("borderWidth", .num 1)]])]))
        | _, _ => .ok none
      else if !(nameTruthy scan.2) && records.length > 0 then
        match findDateFieldNoSkip r0 with
        | some dateField =>
          let buckets := dateBuckets records dateField
          let dates := insertionSortB strLe (jsObjectKeys (buckets.map Prod.fst))
          if dates.isEmpty then .ok none
          else .ok (some (singleDatasetOut (.str ("Count by " ++ dateField)) dates
            (countsFor dates buckets) visualizationType))
        | none => .ok none
      else .ok none
    | _ => .ok none
  else .ok none

/-- Source: getChartData of the ReportVisualization component.  The report
config arrives already parsed (the source falls back to an empty object on
a parse failure) and reportData is the parsed report data, none standing
for an absent or unparseable data attribute.  The darkMode flag stands for
the color-scheme cookie. -/
def getChartData (visualizationType : String) (config : JSVal) (reportData : Option JSVal) (darkMode : Bool) : Except Unit JSVal :=
  match reportData with
  | none => .ok (getSampleData visualizationType darkMode)
  | some rd =>
    if !(jsTruthy rd) then .ok (getSampleData visualizationType darkMode)
    else
      let searchResults := jsOrDefault (jget rd "graphData") (jsOrDefault (jget rd "data") rd)
      if jsTruthy searchResults && jsTruthy (jget searchResults "labels")
          && jsTruthy (jget searchResults "datasets") then
        .ok searchResults
      else
        stepOr (stepChartDef searchResults config visualizationType)
        (stepOr (stepLegacy searchResults config visualizationType)
        (stepOr (stepAggregation searchResults visualizationType)
        (stepOr (stepMultiModel searchResults visualizationType darkMode)
        (stepOr (stepPlainRecords searchResults visualizationType)
          (.ok (getSampleData visualizationType darkMode))))))

/-- A field descriptor produced by the dialog: name, inferred type and
display label. -/
structure FieldDescr where
  name : String
  type : String
  label : String
  deriving Repr, DecidableEq

/-- Source: _addFieldsFromRecord of the ReportDialog: each own
non-technical field of the record is classified as number when its value
has runtime type number, as date when its value is a Date instance or a
string with an ISO date start, and as string otherwise. -/
def addFieldsFromRecord (record : JSVal) : List FieldDescr :=
  (jsEntries record).filterMap (fun p =>
    if technicalField p.1 then none
    else
      let fieldType :=
        if typeofNumber p.2 then "number"
        else if isDateInstance p.2 || (typeofString p.2 && isoDateStart (jsString p.2)) then "date"
        else "string"
      some ⟨p.1, fieldType, fieldLabelOf p.1⟩)

/-- Source: _getDefaultDimensionField: first date field, else first string
field, else the first field, else null. -/
def getDefaultDimensionField (fields : List FieldDescr) : Option String :=
  match fields.find? (fun f => f.type == "date") with
  | some f => some f.name
  | none =>
    match fields.find? (fun f => f.type == "string") with
    | some f => some f.name
    | none =>
      match fields with
      | [] => none
      | f :: _ => some f.name

/-- Source: _getDefaultMeasureField: first numeric field, else first field
whose name differs from the default dimension, else the FIRST FIELD when
any exists, else null. -/
def getDefaultMeasureField (fields : List FieldDescr) : Option String :=
  match fields.find? (fun f => f.type == "number") with
  | some f => some f.name
  | none =>
    let dimensionField := getDefaultDimensionField fields
    match fields.find? (fun f => !(dimensionField == some f.name)) with
    | some f => some f.name
    | none =>
      match fields with
      | [] => none
      | f :: _ => some f.name

/-- The aggregation-type catalogue of _getAggregationTypes; absent JS keys
are modelled as false. -/
structure AggTypeInfo where
  id : String
  name : String
  applicableToAll : Bool
  numericOnly : Bool
  deriving Repr, DecidableEq

def getAggregationTypes : List AggTypeInfo :=
  [⟨"none", "None", true, false⟩,
   ⟨"count", "Count", true, false⟩,
   ⟨"sum", "Sum", false, true⟩,
   ⟨"average", "Average", false, true⟩,
   ⟨"min", "Minimum", false, true⟩,
   ⟨"max", "Maximum", false, true⟩]

/-- The dialog state the handlers below read and replace; config is the
visualization-type-specific options object. -/
structure DialogState where
  name : String
  visualizationType : String
  availableFields : List FieldDescr
  dimensionField : Option String
  measureField : Option String
  aggregationType : String
  seriesField : Option String
  config : List (String × JSVal)

/-- A nullable string state field as the JS value it holds. -/
def optStrOrNull : Option String → JSVal
  | some t => .str t
  | none => .null

def optTruthy : Option String → Bool
  | some t => decide (t ≠ "")
  | none => false

/-- Source: onVisualizationTypeChanged: the three field selections are read
off the state and written back into the replacement config; the stacked
flag survives only a bar-to-bar change and the cumulated flag only a
line-to-line change; an unknown type leaves the config alone. -/
def onVisualizationTypeChanged (s : DialogState) (newType : String) : DialogState :=
  let previousType := s.visualizationType
  let s1 := { s with visualizationType := newType }
  if newType == "bar" then
    { s1 with config := [
      ("stacked", if previousType == "bar" then jget (.obj s1.config) "stacked" else .bool false),
      ("dimensionField", optStrOrNull s1.dimensionField),
      ("measureField", optStrOrNull s1.measureField),
      ("seriesField", optStrOrNull s1.seriesField)] }
  else if newType == "line" then
    { s1 with config := [
      ("cumulated", if previousType == "line" then jget (.obj s1.config) "cumulated" else .bool false),
      ("dimensionField", optStrOrNull s1.dimensionField),
      ("measureField", optStrOrNull s1.measureField)] }
  else if newType == "pie" then
    { s1 with config := [
      ("dimensionField", optStrOrNull s1.dimensionField),
      ("measureField", optStrOrNull s1.measureField)] }
  else s1

/-- Source: onMeasureFieldChanged: store the new measure field; when the
active aggregation type is numeric-only and the new field is not typed
number, reset the aggregation to count. -/
def onMeasureFieldChanged (s : DialogState) (newField : String) : DialogState :=
  let s1 := { s with measureField := some newField }
  let fieldObj := s1.availableFields.find? (fun f => f.name == newField)
  let isNumeric := match fieldObj with | some f => f.type == "number" | none => false
  match getAggregationTypes.find? (fun t => t.id == s1.aggregationType) with
  | some t =>
    if t.numericOnly && !isNumeric then { s1 with aggregationType := "count" } else s1
  | none => s1

/-- Source: validateInputs, as the boolean it returns: name non-blank,
query text present, dimension and measure selected, and a series field
selected when a stacked bar chart is configured. -/
def validateInputsB (queryText : String) (s : DialogState) : Bool :=
  !(s.name == "" || trimStr s.name == "")
    && !(queryText == "")
    && optTruthy s.dimensionField
    && optTruthy s.measureField
    && !(s.visualizationType == "bar" && jsTruthy (jget (.obj s.config) "stacked")
          && !(optTruthy s.seriesField))

mutual
/-- JSON.parse(JSON.stringify(v)): NaN serialises to null, Date objects to
their ISO string, method-only objects to an empty object; undefined array
elements become null and undefined-valued object keys are dropped.  A
top-level undefined does not serialise at all; it cannot reach this
function in the modelled code, and is mapped to null. -/
def jsonRoundTrip : JSVal → JSVal
  | .num q => .num q
  | .nan => .null
  | .str s => .str s
  | .bool b => .bool b
  | .null => .null
  | .undef => .null
  | .arr l => .arr (jsonRoundTripElems l)
  | .obj l => .obj (jsonRoundTripFields l)
  | .date iso => .str iso
  | .yearObj => .obj []

def jsonRoundTripElems : List JSVal → List JSVal
  | [] => []
  | v :: rest => jsonRoundTrip v :: jsonRoundTripElems rest

def jsonRoundTripFields : List (String × JSVal) → List (String × JSVal)
  | [] => []
  | (k, v) :: rest =>
    match v with
    | .undef => jsonRoundTripFields rest
    | v => (k, jsonRoundTrip v) :: jsonRoundTripFields rest
end

/-- Property assignment o[k] = v on an object: an existing binding is
updated in place, a new key is appended. -/
def objSet : List (String × JSVal) → String → JSVal → List (String × JSVal)
  | [], k, v => [(k, v)]
  | (k0, v0) :: rest, k, v =>
    if k0 == k then (k0, v) :: rest else (k0, v0) :: objSet rest k v

/-- The fieldTypes map embedded into the chart definition: a reduce over
the available fields assigning name to type. -/
def fieldTypesOf (fields : List FieldDescr) : List (String × JSVal) :=
  fields.foldl (fun acc f => objSet acc f.name (.str f.type)) []

/-- The props the dialog receives; onConfirmProvided records whether the
optional onConfirm callback prop was passed. -/
structure DialogProps where
  queryText : String
  searchResults : JSVal
  onConfirmProvided : Bool

/-- The bundle handed to the onConfirm callback. -/
structure ReportData where
  name : String
  query_text : String
  visualization_type : String
  config : JSVal
  data : JSVal

/-- Source: onConfirm of the ReportDialog, with the in-place mutation of
the searchResults prop made explicit: the result carries the value of
props.searchResults AFTER the call, the bundle handed to the caller (none
when a validation stop occurred first), and whether the dialog was
closed.  The chartDefinition key is attached directly to the callers
payload object before the deep copy is taken.  In strict mode, assigning a
property of a truthy primitive throws. -/
def confirmConfig1 (s : DialogState) : List (String × JSVal) :=
  objSet (objSet s.config "dimensionField" (optStrOrNull s.dimensionField))
    "measureField" (optStrOrNull s.measureField)

def confirmConfig2 (s : DialogState) : List (String × JSVal) :=
  if s.visualizationType == "bar" && jsTruthy (jget (.obj (confirmConfig1 s)) "stacked") then
    objSet (confirmConfig1 s) "seriesField" (optStrOrNull s.seriesField)
  else confirmConfig1 s

/-- The chart definition assembled by onConfirm from the dialog state. -/
def confirmChartDef (s : DialogState) : JSVal :=
  .obj [
    ("dimensionField", optStrOrNull s.dimensionField),
    ("measureField", optStrOrNull s.measureField),
    ("aggregationType", .str s.aggregationType),
    ("seriesField",
      if s.visualizationType == "bar" && jsTruthy (jget (.obj (confirmConfig2 s)) "stacked") then
        optStrOrNull s.seriesField
      else .null),
    ("fieldTypes", .obj (fieldTypesOf s.availableFields))]

def onConfirmDialog (props : DialogProps) (s : DialogState) : Except Unit (JSVal × Option ReportData × Bool) :=
  if !(validateInputsB props.queryText s) then .ok (props.searchResults, none, false)
  else if !props.onConfirmProvided then .ok (props.searchResults, none, false)
  else
    let name := trimStr s.name
    let query_text := trimStr props.queryText
    let config2 := confirmConfig2 s
    let chartDef : JSVal := confirmChartDef s
    let rawDataAndAfter : Except Unit (JSVal × JSVal) :=
      if jsTruthy props.searchResults then
        match props.searchResults with
        | .obj l => .ok (.obj (objSet l "chartDefinition" chartDef), .obj (objSet l "chartDefinition" chartDef))
        | _ => .error ()
      else .ok (.obj [("chartDefinition", chartDef)], props.searchResults)
    match rawDataAndAfter with
    | .error e => .error e
    | .ok (rawData, srAfter) =>
      let reportData : ReportData := {
        name := name,
        query_text := query_text,
        visualization_type := s.visualizationType,
        config := jsonRoundTrip (.obj config2),
        data := jsonRoundTrip rawData }
      if name == "" || query_text == "" then .ok (srAfter, none, false)
      else .ok (srAfter, some reportData, true)

/-- The field value is the literal number NaN. -/
def isNaNVal : JSVal → Bool
  | .nan => true
  | _ => false

/-- Follows the words of the spec for the Aggregator coercion: numeric
passthrough; first element of an array coerced to number; otherwise
best-effort numeric parse; a failed parse is NaN, to be discarded before
reducing.  Written from the specification text, for comparison with the
code-derived aggregateValues. -/
def specParsedValue : JSVal → Option ℚ
  | .num q => some q
  | .nan => none
  | .arr (x :: _) => parseFloatVal x
  | v => parseFloatVal v

/-- Follows the words of the spec for the average kind: the sum of the
parseable values divided by the count of surviving values, and 0 when zero
values parse.  Written from the specification text. -/
def specAverage (records : List JSVal) (field : JSVal) : ℚ :=
  match records.filterMap (fun r => specParsedValue (jgetV r field)) with
  | [] => 0
  | v :: vs => (v :: vs).sum / (((v :: vs).length : ℕ) : ℚ)

/-! ### Generic lemmas about the embedded container operations -/

theorem mem_orderedInsertB {le : α → α → Bool} {a b : α} {l : List α} :
    b ∈ orderedInsertB le a l ↔ b = a ∨ b ∈ l := by
  induction l with
  | nil => simp [orderedInsertB]
  | cons c t ih =>
    simp only [orderedInsertB]
    split
    · simp [List.mem_cons]
    · simp [List.mem_cons, ih]
      tauto

theorem mem_insertionSortB {le : α → α → Bool} {b : α} {l : List α} :
    b ∈ insertionSortB le l ↔ b ∈ l := by
  induction l with
  | nil => simp [insertionSortB]
  | cons c t ih => simp [insertionSortB, mem_orderedInsertB, ih]

theorem pairwise_orderedInsertB {le : α → α → Bool}
    (htot : ∀ x y, le x y = true ∨ le y x = true)
    (htr : ∀ x y z, le x y = true → le y z = true → le x z = true)
    {a : α} {l : List α}
    (h : l.Pairwise (fun x y => le x y = true)) :
    (orderedInsertB le a l).Pairwise (fun x y => le x y = true) := by
  induction l with
  | nil => simp [orderedInsertB]
  | cons c t ih =>
    rcases List.pairwise_cons.mp h with ⟨hc, ht⟩
    by_cases hle : le a c = true
    · simp only [orderedInsertB, if_pos hle]
      refine List.pairwise_cons.mpr ⟨?_, h⟩
      intro b hb
      rcases List.mem_cons.mp hb with rfl | hbt
      · exact hle
      · exact htr a c b hle (hc b hbt)
    · simp only [orderedInsertB, if_neg hle]
      refine List.pairwise_cons.mpr ⟨?_, ih ht⟩
      intro b hb
      rcases mem_orderedInsertB.mp hb with hba | hbt
      · rw [hba]
        rcases htot a c with h1 | h1
        · exact absurd h1 hle
        · exact h1
      · exact hc b hbt

theorem pairwise_insertionSortB {le : α → α → Bool}
    (htot : ∀ x y, le x y = true ∨ le y x = true)
    (htr : ∀ x y z, le x y = true → le y z = true → le x z = true)
    (l : List α) :
    (insertionSortB le l).Pairwise (fun x y => le x y = true) := by
  induction l with
  | nil => simp [insertionSortB]
  | cons c t ih => exact pairwise_orderedInsertB htot htr ih

theorem strLeList_total (x y : List Char) : strLeList x y = true ∨ strLeList y x = true := by
  induction x generalizing y with
  | nil => left; rfl
  | cons a as ih =>
    cases y with
    | nil => right; rfl
    | cons b bs =>
      simp only [strLeList]
      rcases Nat.lt_trichotomy a.toNat b.toNat with h | h | h
      · left; rw [if_pos h]
      · rw [if_neg (by omega), if_neg (by omega), if_neg (by omega), if_neg (by omega)]
        exact ih bs
      · right; rw [if_pos h]

theorem strLeList_trans (x y z : List Char) :
    strLeList x y = true → strLeList y z = true → strLeList x z = true := by
  induction x generalizing y z with
  | nil => intro _ _; rfl
  | cons a as ih =>
    cases y with
    | nil => intro h _; exact absurd h (by simp [strLeList])
    | cons b bs =>
      cases z with
      | nil => intro _ h; exact absurd h (by simp [strLeList])
      | cons c cs =>
        simp only [strLeList]
        intro hxy hyz
        split_ifs at hxy hyz ⊢ <;>
          first
            | rfl
            | omega
            | (exact ih bs cs hxy hyz)

theorem strLe_total (x y : String) : strLe x y = true ∨ strLe y x = true :=
  strLeList_total x.data y.data

theorem strLe_trans (x y z : String) :
    strLe x y = true → strLe y z = true → strLe x z = true :=
  strLeList_trans x.data y.data z.data

theorem mapWithIndexFrom_length (f : ℕ → α → β) (k : ℕ) (l : List α) :
    (mapWithIndexFrom f k l).length = l.length := by
  induction l generalizing k with
  | nil => rfl
  | cons a t ih => simp [mapWithIndexFrom, ih]

theorem mapWithIndexFrom_get? (f : ℕ → α → β) (k j : ℕ) (l : List α) :
    (mapWithIndexFrom f k l).get? j = (l.get? j).map (f (k + j)) := by
  induction l generalizing k j with
  | nil => simp [mapWithIndexFrom]
  | cons a t ih =>
    cases j with
    | zero => simp [mapWithIndexFrom]
    | succ n =>
      simp only [mapWithIndexFrom, List.get?]
      have he : k + 1 + n = k + (n + 1) := by omega
      rw [ih, he]

theorem mapWithIndex_length (f : ℕ → α → β) (l : List α) :
    (mapWithIndex f l).length = l.length := mapWithIndexFrom_length f 0 l

theorem mapWithIndex_get? (f : ℕ → α → β) (j : ℕ) (l : List α) :
    (mapWithIndex f l).get? j = (l.get? j).map (f j) := by
  simpa using mapWithIndexFrom_get? f 0 j l

theorem dedupSeen_map_str (l : List String) (seenS : List String) :
    dedupSeen sameValueZero (seenS.map JSVal.str) (l.map JSVal.str)
      = (dedupSeen (fun a b => a == b) seenS l).map JSVal.str := by
  induction l generalizing seenS with
  | nil => rfl
  | cons a t ih =>
    simp only [List.map_cons, dedupSeen]
    have hany : ∀ bs : List String,
        ((bs.map JSVal.str).any (fun s => sameValueZero s (.str a)))
          = (bs.any (fun s => s == a)) := by
      intro bs
      induction bs with
      | nil => rfl
      | cons b bs ihs =>
        simp only [List.map_cons, List.any_cons, ihs]
        rfl
    rw [hany]
    by_cases h : seenS.any (fun s => s == a) = true
    · rw [if_pos h, if_pos h]
      exact ih seenS
    · rw [if_neg h, if_neg h]
      have hap : List.map JSVal.str seenS ++ [JSVal.str a] = (seenS ++ [a]).map JSVal.str := by
        simp
      rw [List.map_cons, ← ih (seenS ++ [a]), hap]

theorem jsSetDedup_map_str (l : List String) :
    jsSetDedup (l.map JSVal.str) = (firstDedup l).map JSVal.str := by
  simpa [jsSetDedup, firstDedup] using dedupSeen_map_str l []

theorem mem_of_mem_dedupSeen {beq : α → α → Bool} {l seen : List α} {a : α} :
    a ∈ dedupSeen beq seen l → a ∈ l := by
  induction l generalizing seen with
  | nil => simp [dedupSeen]
  | cons b t ih =>
    simp only [dedupSeen]
    split
    · intro h; exact List.mem_cons_of_mem _ (ih h)
    · intro h
      rcases List.mem_cons.mp h with rfl | h2
      · exact List.mem_cons_self _ _
      · exact List.mem_cons_of_mem _ (ih h2)

theorem mem_dedupSeenStr_of {l : List String} {a : String} :
    ∀ seen : List String, a ∈ l → seen.any (fun s => s == a) = false →
      a ∈ dedupSeen (fun x y => x == y) seen l := by
  induction l with
  | nil => intro seen h; simp at h
  | cons b t ih =>
    intro seen h hseen
    simp only [dedupSeen]
    by_cases hb : seen.any (fun s => s == b) = true
    · rw [if_pos hb]
      rcases List.mem_cons.mp h with hab | hat
      · exfalso
        rw [hab] at hseen
        rw [hseen] at hb
        exact Bool.false_ne_true hb
      · exact ih seen hat hseen
    · rw [if_neg hb]
      by_cases hab : b = a
      · rw [hab]; exact List.mem_cons_self _ _
      · rcases List.mem_cons.mp h with hba | hat
        · exact absurd hba.symm hab
        · apply List.mem_cons_of_mem
          apply ih _ hat
          simp only [List.any_append, hseen, List.any_cons, List.any_nil]
          simp [hab]

theorem mem_firstDedup_iff {l : List String} {a : String} :
    a ∈ firstDedup l ↔ a ∈ l :=
  ⟨mem_of_mem_dedupSeen, fun h => mem_dedupSeenStr_of [] h rfl⟩

theorem mem_jsOwnKeysOrder_iff {ks : List String} {a : String} :
    a ∈ jsOwnKeysOrder ks ↔ a ∈ ks := by
  simp only [jsOwnKeysOrder, List.mem_append, mem_insertionSortB, List.mem_filter]
  by_cases h : isArrayIndexKey a = true
  · simp [h]
  · simp [h]

theorem mem_jsObjectKeys_iff {ks : List String} {a : String} :
    a ∈ jsObjectKeys ks ↔ a ∈ ks := by
  simp [jsObjectKeys, mem_jsOwnKeysOrder_iff, mem_firstDedup_iff]

/-- The number of records whose normalised date value is truthy and
prints as the given bucket key. -/
def dateMatchCount (records : List JSVal) (df : String) (k : String) : ℕ :=
  (records.filter (fun r => jsTruthy (processDateValue (jget r df))
    && (jsString (processDateValue (jget r df)) == k))).length

theorem lookupCount_bumpCount (k k2 : String) (acc : List (String × ℕ)) :
    lookupCount (bumpCount k acc) k2
      = if k = k2 then some ((lookupCount acc k2).getD 0 + 1) else lookupCount acc k2 := by
  induction acc with
  | nil =>
    by_cases h : k = k2
    · subst h
      simp [bumpCount, lookupCount]
    · rw [if_neg h]
      simp [bumpCount, lookupCount, List.find?, show (k == k2) = false from by simpa using h]
  | cons p rest ih =>
    rcases p with ⟨k0, n⟩
    by_cases h0 : k0 = k
    · subst h0
      rw [show bumpCount k0 ((k0, n) :: rest) = (k0, n + 1) :: rest from by simp [bumpCount]]
      by_cases hk2 : k0 = k2
      · subst hk2
        simp [lookupCount, List.find?]
      · rw [if_neg hk2]
        simp [lookupCount, List.find?, show (k0 == k2) = false from by simpa using hk2]
    · rw [show bumpCount k ((k0, n) :: rest) = (k0, n) :: bumpCount k rest from by
        simp [bumpCount, h0]]
      by_cases hk02 : k0 = k2
      · subst hk02
        have hkk2 : ¬ k = k0 := fun he => h0 he.symm
        rw [if_neg hkk2]
        simp [lookupCount, List.find?]
      · have hfneg : ((k0, n).1 == k2) = false := by simpa using hk02
        simp only [lookupCount, List.find?, hfneg]
        simpa [lookupCount] using ih

theorem dateBuckets_fold_lookup (df : String) (k : String) (records : List JSVal) :
    ∀ acc : List (String × ℕ),
      lookupCount (records.foldl (fun acc r =>
          let dv := processDateValue (jget r df)
          if jsTruthy dv then bumpCount (jsString dv) acc else acc) acc) k
        = match lookupCount acc k with
          | some n => some (n + dateMatchCount records df k)
          | none =>
            if dateMatchCount records df k = 0 then none
            else some (dateMatchCount records df k) := by
  induction records with
  | nil =>
    intro acc
    simp only [List.foldl_nil, dateMatchCount, List.filter_nil, List.length_nil]
    cases lookupCount acc k <;> simp
  | cons r rs ih =>
    intro acc
    simp only [List.foldl_cons]
    have hcount : dateMatchCount (r :: rs) df k
        = (if (jsTruthy (processDateValue (jget r df))
            && (jsString (processDateValue (jget r df)) == k)) = true then 1 else 0)
          + dateMatchCount rs df k := by
      simp only [dateMatchCount, List.filter_cons]
      split <;> simp [Nat.succ_eq_add_one] <;> omega
    by_cases ht : jsTruthy (processDateValue (jget r df)) = true
    · rw [show (if jsTruthy (processDateValue (jget r df)) = true
          then bumpCount (jsString (processDateValue (jget r df))) acc else acc)
          = bumpCount (jsString (processDateValue (jget r df))) acc from by simp [ht]]
      rw [ih, lookupCount_bumpCount]
      by_cases hk : jsString (processDateValue (jget r df)) = k
      · rw [if_pos hk]
        rw [hcount]
        rw [show (jsTruthy (processDateValue (jget r df))
            && (jsString (processDateValue (jget r df)) == k)) = true from by
          simp [ht, hk]]
        cases hlk : lookupCount acc k <;> simp <;> omega
      · rw [if_neg hk]
        rw [hcount]
        rw [show (jsTruthy (processDateValue (jget r df))
            && (jsString (processDateValue (jget r df)) == k)) = false from by
          simp [hk]]
        simp
    · rw [show (if jsTruthy (processDateValue (jget r df)) = true
          then bumpCount (jsString (processDateValue (jget r df))) acc else acc) = acc from by
        simp [ht]]
      rw [ih, hcount]
      rw [show (jsTruthy (processDateValue (jget r df))
          && (jsString (processDateValue (jget r df)) == k)) = false from by
        simp [ht]]
      simp

theorem dateBuckets_lookup (records : List JSVal) (df : String) (k : String) :
    lookupCount (dateBuckets records df) k
      = if dateMatchCount records df k = 0 then none
        else some (dateMatchCount records df k) := by
  have h := dateBuckets_fold_lookup df k records []
  simpa [dateBuckets, lookupCount] using h

theorem lookupCount_isSome_iff_mem_keys (b : List (String × ℕ)) (k : String) :
    (lookupCount b k).isSome = true ↔ k ∈ b.map Prod.fst := by
  induction b with
  | nil => simp [lookupCount]
  | cons p rest ih =>
    rcases p with ⟨k0, n⟩
    by_cases h : k0 = k
    · subst h
      simp [lookupCount, List.find?]
    · simp only [lookupCount, List.find?, show (k0 == k) = false from by simpa using h]
      simpa [lookupCount, h, Ne.symm h] using ih

theorem mem_dateBuckets_keys_iff (records : List JSVal) (df k : String) :
    k ∈ (dateBuckets records df).map Prod.fst ↔ dateMatchCount records df k ≠ 0 := by
  rw [← lookupCount_isSome_iff_mem_keys, dateBuckets_lookup]
  by_cases h : dateMatchCount records df k = 0 <;> simp [h]

theorem jget_objSet (l : List (String × JSVal)) (k : String) (v : JSVal) :
    jget (.obj (objSet l k v)) k = v := by
  induction l with
  | nil => simp [objSet, jget, List.find?]
  | cons p rest ih =>
    rcases p with ⟨k0, v0⟩
    by_cases h : k0 = k
    · subst h
      simp [objSet, jget, List.find?]
    · rw [show objSet ((k0, v0) :: rest) k v = (k0, v0) :: objSet rest k v from by
        simp [objSet, h]]
      simpa [jget, List.find?, show (k0 == k) = false from by simpa using h] using ih

theorem jget_jsonRoundTrip_objSet (l : List (String × JSVal)) (k : String) (v : JSVal)
    (hv : isObj v = true) :
    jget (.obj (jsonRoundTripFields (objSet l k v))) k = jsonRoundTrip v := by
  induction l with
  | nil =>
    cases v <;> simp_all [isObj, objSet, jsonRoundTripFields, jget, List.find?]
  | cons p rest ih =>
    rcases p with ⟨k0, v0⟩
    by_cases h : k0 = k
    · subst h
      rw [show objSet ((k0, v0) :: rest) k0 v = (k0, v) :: rest from by simp [objSet]]
      cases v <;> simp_all [isObj, jsonRoundTripFields, jget, List.find?]
    · rw [show objSet ((k0, v0) :: rest) k v = (k0, v0) :: objSet rest k v from by
        simp [objSet, h]]
      cases v0 with
      | undef => simpa [jsonRoundTripFields] using ih
      | _ =>
        simp only [jsonRoundTripFields]
        simpa [jget, List.find?, show (k0 == k) = false from by simpa using h] using ih

theorem jsCoerceNum_isSome {v : JSVal} (h : isNaNVal v = false) :
    jsCoerceNum v = some ((jsCoerceNum v).getD 0) := by
  cases v with
  | nan => simp [isNaNVal] at h
  | arr l => cases l <;> rfl
  | num q => rfl
  | str s => rfl
  | bool b => rfl
  | null => rfl
  | undef => rfl
  | obj l => rfl
  | date iso => rfl
  | yearObj => rfl

theorem aggregateValues_nil (field aggregationType : JSVal) :
    aggregateValues [] field aggregationType = .num 0 := rfl

theorem filterMap_id_of_all_some {l : List JSVal} {f : JSVal → Option ℚ}
    (h : ∀ x ∈ l, f x = some ((f x).getD 0)) :
    (l.map f).filterMap id = l.map (fun x => (f x).getD 0) := by
  induction l with
  | nil => rfl
  | cons a t ih =>
    simp only [List.map_cons, List.filterMap_cons]
    rw [h a (List.mem_cons_self a t)]
    simp only [id_eq]
    rw [ih (fun x hx => h x (List.mem_cons_of_mem _ hx))]
    simp

/-! ### Claim C1 -/

/-- Claim C1 states that average aggregation returns the sum of the
parseable numeric values divided by the number of values that parsed
successfully, NaN values being discarded before reducing.  This is false
on the code: the or-0 fallback coalesces every failed parse to 0 before
the NaN filter runs, so nothing is discarded.  On the two records with
field values abc and 10, the code returns (0 + 10) / 2 = 5, while the
claimed rule (embodied by specAverage, written from the spec text) gives
10 / 1 = 10. -/
theorem C1_counterexample :
    aggregateValues [JSVal.obj [("f", JSVal.str "abc")], JSVal.obj [("f", JSVal.str "10")]]
        (JSVal.str "f") (JSVal.str "average") = JSVal.num 5
    ∧ specAverage [JSVal.obj [("f", JSVal.str "abc")], JSVal.obj [("f", JSVal.str "10")]]
        (JSVal.str "f") = 10
    ∧ (5 : ℚ) ≠ 10 := by
  refine ⟨?_, ?_, by norm_num⟩
  · show JSVal.num (qdiv (qsum [0, 10]) ((2 : ℕ) : ℚ)) = JSVal.num 5
    rw [qdiv_eq, qsum_eq]
    norm_num
  · show ([(10 : ℚ)].sum / ((1 : ℕ) : ℚ) : ℚ) = 10
    norm_num

/-- Claim C1 amended: for every record list none of whose field values is
the literal number NaN, average aggregation returns the sum of the coerced
values, with every unparseable value contributing 0 rather than being
discarded, divided by the TOTAL record count; the empty record list gives
0.  (Only literal NaN numbers are ever discarded by the filter, because
the or-0 fallback prevents any other NaN from arising.) -/
theorem C1_amended (records : List JSVal) (field : JSVal)
    (h : records.all (fun r => !isNaNVal (jgetV r field)) = true) :
    aggregateValues records field (JSVal.str "average")
      = JSVal.num (if records.isEmpty then 0
          else (records.map (fun r => (jsCoerceNum (jgetV r field)).getD 0)).sum
            / ((records.length : ℕ) : ℚ)) := by
  cases records with
  | nil => rfl
  | cons r0 rs =>
    have hsome : ∀ x ∈ (r0 :: rs), (fun r => jsCoerceNum (jgetV r field)) x
        = some (((fun r => jsCoerceNum (jgetV r field)) x).getD 0) := by
      intro x hx
      apply jsCoerceNum_isSome
      simpa using (List.all_eq_true.mp h) x hx
    have hfm := filterMap_id_of_all_some hsome
    simp only [aggregateValues, strictEqStr]
    rw [hfm]
    simp only [List.map_cons]
    rw [if_neg (by decide), if_neg (by decide), if_neg (by decide), if_pos (by decide)]
    rw [qdiv_eq, qsum_eq]
    simp only [List.isEmpty_cons, Bool.false_eq_true, if_false, List.map_cons,
      List.length_cons, List.length_map, List.sum_cons]

/-- Witness for C1 amended at the concrete two-record input. -/
theorem C1_amended_witness :
    aggregateValues [JSVal.obj [("f", JSVal.str "abc")], JSVal.obj [("f", JSVal.str "10")]]
        (JSVal.str "f") (JSVal.str "average")
      = JSVal.num (if ([JSVal.obj [("f", JSVal.str "abc")], JSVal.obj [("f", JSVal.str "10")]]
            : List JSVal).isEmpty then 0
          else (([JSVal.obj [("f", JSVal.str "abc")], JSVal.obj [("f", JSVal.str "10")]]
              : List JSVal).map
              (fun r => (jsCoerceNum (jgetV r (JSVal.str "f"))).getD 0)).sum
            / ((([JSVal.obj [("f", JSVal.str "abc")], JSVal.obj [("f", JSVal.str "10")]]
              : List JSVal).length : ℕ) : ℚ)) :=
  C1_amended _ _ (by decide)

/-! ### Claim C3 -/

/-- Claim C3 states the Field Inspector classifies a value exposing a
year-extraction method as a date.  This is false on the code: the dialog
checks only instanceof Date and the ISO string pattern, so a non-Date
object with a getFullYear method is classified as string. -/
theorem C3_counterexample :
    addFieldsFromRecord (JSVal.obj [("when", JSVal.yearObj)])
      = [⟨"when", "string", "When"⟩]
    ∧ hasGetFullYear JSVal.yearObj = true
    ∧ ("string" : String) ≠ "date" := ⟨rfl, rfl, by decide⟩

/-- Claim C3 amended: every descriptor the inspector produces names a
non-technical own field (id, has_linked_data and names ending in _info
excluded), carries the underscore-to-space title-cased label, and is
classified number when the runtime type of the value is number, date when
the value is a Date instance or a string with an ISO date start (the
year-method duck-typing is NOT consulted here; it is used only by the
chart builder), and string otherwise; conversely every non-technical own
field yields a descriptor. -/
theorem C3_amended (record : JSVal) :
    (∀ d ∈ addFieldsFromRecord record,
      technicalField d.name = false
      ∧ d.label = fieldLabelOf d.name
      ∧ ∃ v, (d.name, v) ∈ jsEntries record
          ∧ d.type = (if typeofNumber v then "number"
              else if isDateInstance v || (typeofString v && isoDateStart (jsString v)) then "date"
              else "string"))
    ∧ ∀ p ∈ jsEntries record, technicalField p.1 = false →
        ∃ d ∈ addFieldsFromRecord record, d.name = p.1 := by
  constructor
  · intro d hd
    simp only [addFieldsFromRecord, List.mem_filterMap] at hd
    rcases hd with ⟨p, hp, hcond⟩
    by_cases ht : technicalField p.1 = true
    · simp [ht] at hcond
    · rw [if_neg ht] at hcond
      have hd := (Option.some_inj.mp hcond)
      refine ⟨?_, ?_, p.2, ?_, ?_⟩
      · rw [← hd]; simpa using ht
      · rw [← hd]
      · rw [← hd]; exact hp
      · rw [← hd]
  · intro p hp hnt
    refine ⟨⟨p.1,
      if typeofNumber p.2 then "number"
      else if isDateInstance p.2 || (typeofString p.2 && isoDateStart (jsString p.2)) then "date"
      else "string", fieldLabelOf p.1⟩, ?_, rfl⟩
    simp only [addFieldsFromRecord, List.mem_filterMap]
    refine ⟨p, hp, ?_⟩
    rw [if_neg (by simp [hnt])]

/-- Witness for C3 amended on a concrete record with a technical and a
plain field. -/
theorem C3_amended_witness :
    ∃ d ∈ addFieldsFromRecord (JSVal.obj [("id", JSVal.num 1), ("name", JSVal.str "x")]),
      d.name = "name" := by
  have h := (C3_amended (JSVal.obj [("id", JSVal.num 1), ("name", JSVal.str "x")])).2
  exact h ("name", JSVal.str "x") (by
    rw [show jsEntries (JSVal.obj [("id", JSVal.num 1), ("name", JSVal.str "x")])
        = [("id", JSVal.num 1), ("name", JSVal.str "x")] from rfl]
    exact List.mem_cons_of_mem _ (List.mem_singleton.mpr rfl)) (by decide)

/-! ### Claim C4 -/

/-- Claim C4 states that when a field-descriptor list has no numeric field
and no field other than the chosen default dimension, no measure is
selected.  This is false on the code: for a single-field list with a
non-numeric field, the source returns the first field (the dimension
itself), not null. -/
theorem C4_counterexample :
    getDefaultMeasureField [⟨"a", "string", "A"⟩] = some "a"
    ∧ some "a" ≠ (none : Option String) := ⟨rfl, by decide⟩

/-- Claim C4 amended: the default measure is the first numeric field; else
the first field whose name differs from the chosen default dimension; else
the FIRST FIELD when the list is non-empty; none exactly when the list is
empty. -/
theorem C4_amended (fields : List FieldDescr) :
    (getDefaultMeasureField fields = none ↔ fields = [])
    ∧ (∀ nf, fields.find? (fun f => f.type == "number") = some nf →
        getDefaultMeasureField fields = some nf.name)
    ∧ ((∀ f ∈ fields, f.type ≠ "number") →
        ∀ af, fields.find? (fun f => !(getDefaultDimensionField fields == some f.name)) = some af →
        getDefaultMeasureField fields = some af.name)
    ∧ ((∀ f ∈ fields, f.type ≠ "number") →
        (∀ f ∈ fields, getDefaultDimensionField fields = some f.name) →
        getDefaultMeasureField fields = fields.head?.map FieldDescr.name) := by
  refine ⟨?_, ?_, ?_, ?_⟩
  · constructor
    · intro h
      cases hfields : fields with
      | nil => rfl
      | cons f rest =>
        exfalso
        rw [hfields] at h
        simp only [getDefaultMeasureField] at h
        cases h1 : (f :: rest).find? (fun f => f.type == "number") with
        | some nf => rw [h1] at h; simp at h
        | none =>
          rw [h1] at h
          cases h2 : (f :: rest).find? (fun g => !(getDefaultDimensionField (f :: rest) == some g.name)) with
          | some af => rw [h2] at h; simp at h
          | none => rw [h2] at h; simp at h
    · intro h; rw [h]; rfl
  · intro nf hnf
    simp only [getDefaultMeasureField, hnf]
  · intro hall af haf
    have hnone : fields.find? (fun f => f.type == "number") = none := by
      rw [List.find?_eq_none]
      intro f hf
      simpa using hall f hf
    simp only [getDefaultMeasureField, hnone, haf]
  · intro hall halldim
    have hnone : fields.find? (fun f => f.type == "number") = none := by
      rw [List.find?_eq_none]
      intro f hf
      simpa using hall f hf
    have hnone2 : fields.find? (fun f => !(getDefaultDimensionField fields == some f.name)) = none := by
      rw [List.find?_eq_none]
      intro f hf
      simp [halldim f hf]
    simp only [getDefaultMeasureField, hnone, hnone2]
    cases fields <;> rfl

/-- Witness for C4 amended: a two-string-field list falls to the
first-differing-name rule, and the empty list gives none. -/
theorem C4_amended_witness :
    getDefaultMeasureField [⟨"a", "string", "A"⟩, ⟨"b", "string", "B"⟩] = some "b"
    ∧ getDefaultMeasureField ([] : List FieldDescr) = none := by
  constructor
  · exact (C4_amended [⟨"a", "string", "A"⟩, ⟨"b", "string", "B"⟩]).2.2.1
      (by decide) ⟨"b", "string", "B"⟩ (by decide)
  · exact ((C4_amended []).1).mpr rfl

/-! ### Claim C8 -/

/-- Claim C8: while a numeric-only aggregation (sum, average, min or max)
is active, changing the measure field to a field whose inferred type is
not number (or to an unknown field) resets the aggregation type to count;
changing it to a numeric field, or having a non-numeric-only aggregation
active, leaves the aggregation type unchanged; the measure selection
itself always becomes the new field. -/
theorem C8_measure_change_agg_reset (s : DialogState) (newField : String) :
    ((s.aggregationType = "sum" ∨ s.aggregationType = "average"
        ∨ s.aggregationType = "min" ∨ s.aggregationType = "max") →
      ((s.availableFields.find? (fun f => f.name == newField)).map FieldDescr.type ≠ some "number") →
      (onMeasureFieldChanged s newField).aggregationType = "count")
    ∧ (((s.availableFields.find? (fun f => f.name == newField)).map FieldDescr.type = some "number") →
      (onMeasureFieldChanged s newField).aggregationType = s.aggregationType)
    ∧ ((s.aggregationType ≠ "sum" ∧ s.aggregationType ≠ "average"
        ∧ s.aggregationType ≠ "min" ∧ s.aggregationType ≠ "max") →
      (onMeasureFieldChanged s newField).aggregationType = s.aggregationType)
    ∧ (onMeasureFieldChanged s newField).measureField = some newField := by
  refine ⟨?_, ?_, ?_, ?_⟩
  · intro hagg hnum
    simp only [onMeasureFieldChanged]
    cases hf : s.availableFields.find? (fun f => f.name == newField) with
    | none =>
      rcases hagg with h | h | h | h <;> simp [h, getAggregationTypes, List.find?]
    | some f =>
      rw [hf] at hnum
      simp at hnum
      rcases hagg with h | h | h | h <;> simp [h, getAggregationTypes, List.find?, hnum]
  · intro hnum
    simp only [onMeasureFieldChanged]
    cases hf : s.availableFields.find? (fun f => f.name == newField) with
    | none => rw [hf] at hnum; simp at hnum
    | some f =>
      rw [hf] at hnum
      simp at hnum
      cases hfind : getAggregationTypes.find? (fun t => t.id == s.aggregationType) with
      | none => rfl
      | some t => simp [hnum]
  · intro hnp
    rcases hnp with ⟨h1, h2, h3, h4⟩
    simp only [onMeasureFieldChanged]
    by_cases hn : s.aggregationType = "none"
    · simp [getAggregationTypes, List.find?, hn]
    · by_cases hc : s.aggregationType = "count"
      · simp [getAggregationTypes, List.find?, hc]
      · have hfind : getAggregationTypes.find? (fun t => t.id == s.aggregationType) = none := by
          rw [List.find?_eq_none]
          intro t ht
          simp only [getAggregationTypes, List.mem_cons, List.not_mem_nil, or_false] at ht
          rcases ht with rfl | rfl | rfl | rfl | rfl | rfl <;> simp <;>
            first
              | exact fun he => hn he.symm
              | exact fun he => hc he.symm
              | exact fun he => h1 he.symm
              | exact fun he => h2 he.symm
              | exact fun he => h3 he.symm
              | exact fun he => h4 he.symm
        rw [hfind]
  · simp only [onMeasureFieldChanged]
    cases hfind : getAggregationTypes.find? (fun t => t.id == s.aggregationType) with
    | none => rfl
    | some t =>
      rw [apply_ite DialogState.measureField]
      simp

/-- A concrete dialog state for the C8 witness: sum active, one date and
one number field. -/
def c8state : DialogState :=
  { name := "r", visualizationType := "bar",
    availableFields := [⟨"d", "date", "D"⟩, ⟨"m", "number", "M"⟩],
    dimensionField := some "d", measureField := some "m",
    aggregationType := "sum", seriesField := none,
    config := [("stacked", .bool false), ("cumulated", .bool false)] }

/-- Witness for C8: switching the measure to the date field resets sum to
count; switching it to the number field keeps sum. -/
theorem C8_witness :
    (onMeasureFieldChanged c8state "d").aggregationType = "count"
    ∧ (onMeasureFieldChanged c8state "m").aggregationType = "sum" := by
  constructor
  · exact (C8_measure_change_agg_reset c8state "d").1 (Or.inl rfl) (by decide)
  · exact (C8_measure_change_agg_reset c8state "m").2.1 (by decide)

/-! ### Claim C9 -/

/-- Claim C9: every visualization-type change preserves the dimension,
measure and series selections of the dialog state (in particular across
the chain bar, line, pie, bar), and only the type-specific config flags
are reset: entering bar from another type forces stacked to false, and
entering line from another type forces cumulated to false. -/
theorem C9_type_change_preserves_fields (s : DialogState) (newType : String) :
    ((onVisualizationTypeChanged s newType).dimensionField = s.dimensionField
      ∧ (onVisualizationTypeChanged s newType).measureField = s.measureField
      ∧ (onVisualizationTypeChanged s newType).seriesField = s.seriesField)
    ∧ ((onVisualizationTypeChanged (onVisualizationTypeChanged (onVisualizationTypeChanged
          (onVisualizationTypeChanged s "bar") "line") "pie") "bar").dimensionField
        = s.dimensionField
      ∧ (onVisualizationTypeChanged (onVisualizationTypeChanged (onVisualizationTypeChanged
          (onVisualizationTypeChanged s "bar") "line") "pie") "bar").measureField
        = s.measureField
      ∧ (onVisualizationTypeChanged (onVisualizationTypeChanged (onVisualizationTypeChanged
          (onVisualizationTypeChanged s "bar") "line") "pie") "bar").seriesField
        = s.seriesField)
    ∧ (newType = "bar" → s.visualizationType ≠ "bar" →
        jget (.obj (onVisualizationTypeChanged s newType).config) "stacked" = .bool false)
    ∧ (newType = "line" → s.visualizationType ≠ "line" →
        jget (.obj (onVisualizationTypeChanged s newType).config) "cumulated" = .bool false) := by
  have hpres : ∀ (s1 : DialogState) (t : String),
      (onVisualizationTypeChanged s1 t).dimensionField = s1.dimensionField
      ∧ (onVisualizationTypeChanged s1 t).measureField = s1.measureField
      ∧ (onVisualizationTypeChanged s1 t).seriesField = s1.seriesField := by
    intro s1 t
    simp only [onVisualizationTypeChanged]
    split_ifs <;> exact ⟨rfl, rfl, rfl⟩
  refine ⟨hpres s newType, ?_, ?_, ?_⟩
  · have h1 := hpres s "bar"
    have h2 := hpres (onVisualizationTypeChanged s "bar") "line"
    have h3 := hpres (onVisualizationTypeChanged (onVisualizationTypeChanged s "bar") "line") "pie"
    have h4 := hpres (onVisualizationTypeChanged (onVisualizationTypeChanged
      (onVisualizationTypeChanged s "bar") "line") "pie") "bar"
    exact ⟨by rw [h4.1, h3.1, h2.1, h1.1], by rw [h4.2.1, h3.2.1, h2.2.1, h1.2.1],
      by rw [h4.2.2, h3.2.2, h2.2.2, h1.2.2]⟩
  · intro hb hprev
    subst hb
    have hb2 : (s.visualizationType == "bar") = false := by simpa using hprev
    simp [onVisualizationTypeChanged, hb2, jget, List.find?]
  · intro hl hprev
    subst hl
    have hl2 : (s.visualizationType == "line") = false := by simpa using hprev
    simp [onVisualizationTypeChanged, hl2, jget, List.find?]

/-- A concrete dialog state for the C9 witness, currently on pie. -/
def c9state : DialogState :=
  { name := "r", visualizationType := "pie",
    availableFields := [⟨"d", "date", "D"⟩, ⟨"m", "number", "M"⟩],
    dimensionField := some "d", measureField := some "m",
    aggregationType := "sum", seriesField := some "x",
    config := [("dimensionField", .str "d"), ("measureField", .str "m")] }

/-- Witness for C9 at a concrete state: switching pie to bar keeps the
dimension selection and resets stacked. -/
theorem C9_witness :
    (onVisualizationTypeChanged c9state "bar").dimensionField = some "d"
    ∧ jget (.obj (onVisualizationTypeChanged c9state "bar").config) "stacked" = .bool false := by
  constructor
  · exact ((C9_type_change_preserves_fields c9state "bar").1).1
  · exact (C9_type_change_preserves_fields c9state "bar").2.2.1 rfl (by decide)

/-! ### Claim C10 -/

/-- Claim C10: for every confirm of the report dialog that passes
validation (with the onConfirm callback provided and an object payload in
the searchResults prop), the searchResults object is mutated in place: the
assembled chart definition is attached under the chartDefinition key of
the callers payload object before the deep copy of the report bundle is
taken, so both the callers own stored search-result value and the data
attribute of the handed-over bundle carry the embedded chart
definition. -/
theorem C10_confirm_mutates_searchResults (props : DialogProps) (s : DialogState)
    (l : List (String × JSVal))
    (hsr : props.searchResults = .obj l)
    (hval : validateInputsB props.queryText s = true)
    (hcb : props.onConfirmProvided = true) :
    ∃ after handed closed,
      onConfirmDialog props s = .ok (after, handed, closed)
      ∧ after = .obj (objSet l "chartDefinition" (confirmChartDef s))
      ∧ isObj (confirmChartDef s) = true
      ∧ jget after "chartDefinition" = confirmChartDef s
      ∧ jget (confirmChartDef s) "dimensionField" = optStrOrNull s.dimensionField
      ∧ jget (confirmChartDef s) "measureField" = optStrOrNull s.measureField
      ∧ jget (confirmChartDef s) "aggregationType" = .str s.aggregationType
      ∧ (∀ rd, handed = some rd →
          rd.data = jsonRoundTrip (.obj (objSet l "chartDefinition" (confirmChartDef s)))
          ∧ jget rd.data "chartDefinition" = jsonRoundTrip (confirmChartDef s)) := by
  simp only [onConfirmDialog, hval, hcb, hsr]
  rw [if_neg (by simp), if_neg (by simp)]
  simp only [jsTruthy, if_pos rfl, if_true]
  by_cases hq : (trimStr s.name == "" || trimStr props.queryText == "") = true
  · rw [if_pos hq]
    refine ⟨_, _, _, rfl, rfl, rfl, jget_objSet _ _ _, ?_, ?_, ?_, ?_⟩
    · simp [confirmChartDef, jget, List.find?]
    · simp [confirmChartDef, jget, List.find?]
    · simp [confirmChartDef, jget, List.find?]
    · intro rd hrd
      exact absurd hrd (by simp)
  · rw [if_neg hq]
    refine ⟨_, _, _, rfl, rfl, rfl, jget_objSet _ _ _, ?_, ?_, ?_, ?_⟩
    · simp [confirmChartDef, jget, List.find?]
    · simp [confirmChartDef, jget, List.find?]
    · simp [confirmChartDef, jget, List.find?]
    · intro rd hrd
      obtain rfl := (Option.some_inj.mp hrd).symm
      refine ⟨rfl, ?_⟩
      show jget (.obj (jsonRoundTripFields (objSet l "chartDefinition" (confirmChartDef s))))
        "chartDefinition" = jsonRoundTrip (confirmChartDef s)
      exact jget_jsonRoundTrip_objSet l "chartDefinition" (confirmChartDef s) rfl

/-- Concrete props for the C10 witness. -/
def c10props : DialogProps := ⟨"find users", .obj [("records", .arr [])], true⟩

/-- Concrete dialog state for the C10 witness. -/
def c10state : DialogState :=
  { name := "My report", visualizationType := "bar",
    availableFields := [⟨"d", "date", "D"⟩, ⟨"m", "number", "M"⟩],
    dimensionField := some "d", measureField := some "m",
    aggregationType := "sum", seriesField := some "x",
    config := [("stacked", .bool false), ("cumulated", .bool false)] }

/-- Witness for C10 at the concrete props and state. -/
theorem C10_witness :
    ∃ after handed closed,
      onConfirmDialog c10props c10state = .ok (after, handed, closed)
      ∧ after = .obj (objSet [("records", .arr [])] "chartDefinition" (confirmChartDef c10state))
      ∧ isObj (confirmChartDef c10state) = true
      ∧ jget after "chartDefinition" = confirmChartDef c10state
      ∧ jget (confirmChartDef c10state) "dimensionField" = optStrOrNull c10state.dimensionField
      ∧ jget (confirmChartDef c10state) "measureField" = optStrOrNull c10state.measureField
      ∧ jget (confirmChartDef c10state) "aggregationType" = .str c10state.aggregationType
      ∧ (∀ rd, handed = some rd →
          rd.data = jsonRoundTrip (.obj (objSet [("records", .arr [])] "chartDefinition"
            (confirmChartDef c10state)))
          ∧ jget rd.data "chartDefinition" = jsonRoundTrip (confirmChartDef c10state)) :=
  C10_confirm_mutates_searchResults c10props c10state [("records", .arr [])] rfl (by decide) rfl

/-! ### Claim C5 -/

theorem strictEqTrue_eq_false_of_not_truthy {v : JSVal} (h : jsTruthy v = false) :
    strictEqTrue v = false := by
  cases v with
  | bool b => cases b with
    | true => simp [jsTruthy] at h
    | false => rfl
  | num q => rfl
  | nan => rfl
  | str s => rfl
  | null => rfl
  | undef => rfl
  | arr l => rfl
  | obj l => rfl
  | date iso => rfl
  | yearObj => rfl

theorem stepChartDef_off {sr config : JSVal} {vt : String}
    (h : jsTruthy (jget sr "chartDefinition") = false) :
    stepChartDef sr config vt = .ok none := by
  simp [stepChartDef, h]

theorem resolveRecords_empty {sr : JSVal}
    (hmm : jsTruthy (jget sr "multi_model") = false)
    (hrec : jsTruthy (jget sr "records") = false) :
    resolveRecords sr = .ok (.arr []) := by
  simp [resolveRecords, hmm, hrec]

theorem stepLegacy_off {sr config : JSVal} {vt : String}
    (hmm : jsTruthy (jget sr "multi_model") = false)
    (hrec : jsTruthy (jget sr "records") = false) :
    stepLegacy sr config vt = .ok none := by
  simp only [stepLegacy, resolveRecords_empty hmm hrec]
  split
  · simp [jsLenGtZero]
  · rfl

theorem stepAggregation_off {sr : JSVal} {vt : String}
    (hrec : jsTruthy (jget sr "records") = false) :
    stepAggregation sr vt = .ok none := by
  simp only [stepAggregation, hrec]
  split
  · simp
  · rfl

theorem stepMultiModel_off {sr : JSVal} {vt : String} {dark : Bool}
    (hmm : jsTruthy (jget sr "multi_model") = false) :
    stepMultiModel sr vt dark = .ok none := by
  simp [stepMultiModel, strictEqTrue_eq_false_of_not_truthy hmm]

theorem stepPlainRecords_off {sr : JSVal} {vt : String}
    (hrec : jsTruthy (jget sr "records") = false) :
    stepPlainRecords sr vt = .ok none := by
  simp [stepPlainRecords, hrec]

/-- Claim C5 amended: getChartData cannot throw and falls back to the
fixed sample dataset whenever none of the probed keys of the payload is
usable: for every payload whose graphData, data, labels, chartDefinition,
records and multi_model keys are all falsy (in particular for a payload
with no recognisable shape at all, such as one whose only key is foo), the
result is the sample dataset with labels Sample A..E and values
30, 20, 25, 15, 10.  The original claim of never failing outward over
EVERY payload is refuted by C5_counterexample: a type-confused payload
makes the code throw instead of returning the sample dataset. -/
theorem C5_amended (visualizationType : String) (config rd : JSVal) (darkMode : Bool)
    (htr : jsTruthy rd = true)
    (h1 : jsTruthy (jget rd "graphData") = false)
    (h2 : jsTruthy (jget rd "data") = false)
    (h3 : jsTruthy (jget rd "labels") = false)
    (h4 : jsTruthy (jget rd "chartDefinition") = false)
    (h5 : jsTruthy (jget rd "records") = false)
    (h6 : jsTruthy (jget rd "multi_model") = false) :
    getChartData visualizationType config (some rd) darkMode
      = .ok (getSampleData visualizationType darkMode)
    ∧ jget (getSampleData visualizationType darkMode) "labels"
      = .arr [.str "Sample A", .str "Sample B", .str "Sample C", .str "Sample D", .str "Sample E"]
    ∧ (∃ ds, jget (getSampleData visualizationType darkMode) "datasets" = .arr [ds]
        ∧ jget ds "data" = .arr [.num 30, .num 20, .num 25, .num 15, .num 10]) := by
  refine ⟨?_, ?_, ?_⟩
  · simp only [getChartData, htr, Bool.not_true, Bool.false_eq_true, if_false,
      jsOrDefault, h1, h2, if_false, h3]
    rw [if_neg (by simp [htr, h3])]
    rw [stepChartDef_off h4, stepLegacy_off h6 h5, stepAggregation_off h5,
      stepMultiModel_off h6, stepPlainRecords_off h5]
    rfl
  · by_cases hp : visualizationType == "pie"
    · simp [getSampleData, hp, jget, List.find?]
    · simp [getSampleData, hp, jget, List.find?]
  · by_cases hp : (visualizationType == "pie") = true
    · refine ⟨JSVal.obj [
        ("label", .str "Sample Data"),
        ("data", .arr [.num 30, .num 20, .num 25, .num 15, .num 10]),
        ("backgroundColor", .arr [
          .str "rgba(255, 99, 132, 0.8)", .str "rgba(54, 162, 235, 0.8)",
          .str "rgba(255, 206, 86, 0.8)", .str "rgba(75, 192, 192, 0.8)",
          .str "rgba(153, 102, 255, 0.8)"]),
        ("borderWidth", .num 1),
        ("borderColor", .str (if darkMode then "#222" else "#fff"))], ?_, ?_⟩
      · simp only [getSampleData, if_pos hp]
        simp [jget, List.find?]
      · simp [jget, List.find?]
    · refine ⟨JSVal.obj [
        ("label", .str "Sample Dataset"),
        ("data", .arr [.num 30, .num 20, .num 25, .num 15, .num 10]),
        ("backgroundColor", .str "rgba(75, 192, 192, 0.2)"),
        ("borderColor", .str "rgba(75, 192, 192, 1)"),
        ("borderWidth", .num 1),
        ("fill", if visualizationType == "line" then .bool false else .undef),
        ("tension", if visualizationType == "line" then .num (mkRat 1 10) else .undef)], ?_, ?_⟩
      · simp only [getSampleData, if_neg hp]
        simp [jget, List.find?]
      · simp [jget, List.find?]

/-- Claim C5 claims buildChartData never fails outward for every payload.
This is false on the code: a payload whose records key holds a non-empty
string while a chart definition selects a dimension field passes the
length guard and then calls an array method on the string, which throws a
TypeError (modelled by error) instead of returning the sample dataset. -/
theorem C5_counterexample :
    getChartData "bar" (JSVal.obj []) (some (JSVal.obj [
      ("records", JSVal.str "ab"),
      ("chartDefinition", JSVal.obj [("dimensionField", JSVal.str "d")])])) false
      = .error ()
    ∧ (Except.error () : Except Unit JSVal) ≠ .ok (getSampleData "bar" false) :=
  ⟨rfl, fun h => Except.noConfusion h⟩

/-- Witness for C5 amended at the unrecognisable payload named by the
claim. -/
theorem C5_amended_witness :
    getChartData "bar" (JSVal.obj []) (some (JSVal.obj [("foo", JSVal.str "bar")])) false
      = .ok (getSampleData "bar" false)
    ∧ jget (getSampleData "bar" false) "labels"
      = .arr [.str "Sample A", .str "Sample B", .str "Sample C", .str "Sample D", .str "Sample E"]
    ∧ (∃ ds, jget (getSampleData "bar" false) "datasets" = .arr [ds]
        ∧ jget ds "data" = .arr [.num 30, .num 20, .num 25, .num 15, .num 10]) :=
  C5_amended "bar" (JSVal.obj []) (JSVal.obj [("foo", JSVal.str "bar")]) false
    rfl rfl rfl rfl rfl rfl rfl


/-- A value on which jget finds an array key is itself truthy (it is an
object or an array). -/
theorem jsTruthy_of_jget_arr {v : JSVal} {k : String} {l : List JSVal}
    (h : jget v k = .arr l) : jsTruthy v = true := by
  cases v with
  | obj fs => rfl
  | arr es => rfl
  | num q => simp [jget] at h
  | nan => simp [jget] at h
  | str s => simp [jget] at h
  | bool b => simp [jget] at h
  | null => simp [jget] at h
  | undef => simp [jget] at h
  | date iso => simp [jget] at h
  | yearObj => simp [jget] at h

/-- Claim C2 amended: in the legacy non-stacked path the builder emits one
label per record (no grouping or deduplication of dimension values) and one
data point per record, the numeric coercion of the record value at the
measure field; there is no aggregation step at all. -/
theorem C2_amended (visualizationType : String) (config rd : JSVal) (records : List JSVal)
    (dark : Bool) (mf : String)
    (h1 : jsTruthy (jget rd "graphData") = false)
    (h2 : jsTruthy (jget rd "data") = false)
    (h3 : jsTruthy (jget rd "labels") = false)
    (h4 : jsTruthy (jget rd "chartDefinition") = false)
    (h6 : jsTruthy (jget rd "multi_model") = false)
    (hrec : jget rd "records" = .arr records)
    (hne : records ≠ [])
    (hdim : jsTruthy (jget config "dimensionField") = true)
    (hmf : jget config "measureField" = .str mf)
    (hmfne : mf ≠ "")
    (hnstack : (visualizationType == "bar" && jsTruthy (jget config "stacked")
        && jsTruthy (jget config "seriesField")) = false) :
    ∃ out,
      getChartData visualizationType config (some rd) dark = .ok out
      ∧ jget out "labels"
        = .arr (records.map (fun r => legacyLabel (jgetV r (jget config "dimensionField"))))
      ∧ (∃ ds, jget out "datasets" = .arr [ds]
          ∧ jget ds "label" = .str (fieldLabelOf mf)
          ∧ jget ds "data"
            = .arr (records.map (fun r => optNumToJS (jsCoerceNum (jgetV r (.str mf)))))) := by
  have htr : jsTruthy rd = true := jsTruthy_of_jget_arr hrec
  have hres : resolveRecords rd = .ok (.arr records) := by
    simp only [resolveRecords, h6, hrec]
    simp [jsTruthy]
  have hmft : jsTruthy (jget config "measureField") = true := by
    rw [hmf]
    simp [jsTruthy, hmfne]
  have hlen : jsLenGtZero (.arr records) = true := by
    simp [jsLenGtZero, List.length_pos, hne]
  have hleg : stepLegacy rd config visualizationType
      = .ok (some (JSVal.obj [
        ("labels", .arr (records.map (fun r => legacyLabel (jgetV r (jget config "dimensionField"))))),
        ("datasets", .arr [ .obj [
          ("label", .str (fieldLabelOf mf)),
          ("data", .arr (records.map (fun r => optNumToJS (jsCoerceNum (jgetV r (.str mf)))))),
          ("backgroundColor", stdBackground visualizationType
            (records.map (fun r => legacyLabel (jgetV r (jget config "dimensionField")))).length),
          ("borderColor", .str "rgba(75, 192, 192, 1)"),
          ("borderWidth", .num 1)]])])) := by
    simp only [stepLegacy, h4, hdim, hmft, hres, Bool.not_false, Bool.true_and, Bool.and_true,
      Bool.and_self, if_true, hlen]
    rw [if_neg (by rw [hnstack]; exact Bool.false_ne_true)]
    rw [hmf]
    simp [legacyPlain]
  refine ⟨JSVal.obj [
      ("labels", .arr (records.map (fun r => legacyLabel (jgetV r (jget config "dimensionField"))))),
      ("datasets", .arr [ .obj [
        ("label", .str (fieldLabelOf mf)),
        ("data", .arr (records.map (fun r => optNumToJS (jsCoerceNum (jgetV r (.str mf)))))),
        ("backgroundColor", stdBackground visualizationType
          (records.map (fun r => legacyLabel (jgetV r (jget config "dimensionField")))).length),
        ("borderColor", .str "rgba(75, 192, 192, 1)"),
        ("borderWidth", .num 1)]])], ?_, ?_, ?_⟩
  · simp only [getChartData, htr, Bool.not_true, Bool.false_eq_true, if_false, jsOrDefault,
      h1, h2, if_false, h3]
    rw [if_neg (by simp [htr, h3])]
    rw [stepChartDef_off h4]
    show stepOr (stepLegacy rd config visualizationType) _ = _
    rw [hleg]
    rfl
  · simp [jget, List.find?]
  · refine ⟨JSVal.obj [
        ("label", .str (fieldLabelOf mf)),
        ("data", .arr (records.map (fun r => optNumToJS (jsCoerceNum (jgetV r (.str mf)))))),
        ("backgroundColor", stdBackground visualizationType
          (records.map (fun r => legacyLabel (jgetV r (jget config "dimensionField")))).length),
        ("borderColor", .str "rgba(75, 192, 192, 1)"),
        ("borderWidth", .num 1)], ?_, ?_, ?_⟩
    · simp [jget, List.find?]
    · simp [jget, List.find?]
    · simp [jget, List.find?]

/-- Claim C2 states the legacy path groups records by dimension value with
one aggregated point per distinct dimension value. Counterexample: two
records sharing dimension value A produce the label list [A, A] of length
two, while grouping by distinct dimension values would give a single
group. -/
theorem C2_counterexample :
    ∃ out, getChartData "bar"
        (.obj [("dimensionField", .str "d"), ("measureField", .str "m")])
        (some (.obj [("records", .arr [
          .obj [("d", .str "A"), ("m", .num 1)],
          .obj [("d", .str "A"), ("m", .num 2)]])])) false = .ok out
      ∧ jget out "labels" = .arr [.str "A", .str "A"]
      ∧ (jsSetDedup [JSVal.str "A", JSVal.str "A"]).length = 1
      ∧ ([JSVal.str "A", JSVal.str "A"] : List JSVal).length ≠ 1 := by
  refine ⟨_, rfl, ?_, ?_, ?_⟩
  · rfl
  · rfl
  · decide

/-- Witness for C2 amended at a concrete two-record legacy payload. -/
theorem C2_amended_witness :
    ∃ out,
      getChartData "line"
        (.obj [("dimensionField", .str "d"), ("measureField", .str "m")])
        (some (.obj [("records", .arr [
          .obj [("d", .str "A"), ("m", .num 1)],
          .obj [("d", .str "A"), ("m", .num 2)]])])) false = .ok out
      ∧ jget out "labels"
        = .arr (([JSVal.obj [("d", .str "A"), ("m", .num 1)],
                  JSVal.obj [("d", .str "A"), ("m", .num 2)]]).map
            (fun r => legacyLabel (jgetV r
              (jget (.obj [("dimensionField", .str "d"), ("measureField", .str "m")]) "dimensionField"))))
      ∧ (∃ ds, jget out "datasets" = .arr [ds]
          ∧ jget ds "label" = .str (fieldLabelOf "m")
          ∧ jget ds "data"
            = .arr (([JSVal.obj [("d", .str "A"), ("m", .num 1)],
                      JSVal.obj [("d", .str "A"), ("m", .num 2)]]).map
                (fun r => optNumToJS (jsCoerceNum (jgetV r (.str "m")))))) :=
  C2_amended "line"
    (.obj [("dimensionField", .str "d"), ("measureField", .str "m")])
    (.obj [("records", .arr [
      .obj [("d", .str "A"), ("m", .num 1)],
      .obj [("d", .str "A"), ("m", .num 2)]])])
    [.obj [("d", .str "A"), ("m", .num 1)], .obj [("d", .str "A"), ("m", .num 2)]]
    false "m" rfl rfl rfl rfl rfl rfl (List.cons_ne_nil _ _) rfl rfl (by decide) rfl


/-- A value on which jget finds a truthy key is itself truthy (only
objects and arrays, both truthy, can return anything but undefined). -/
theorem jsTruthy_of_jget_truthy {v cd : JSVal} {k : String}
    (h : jget v k = cd) (ht : jsTruthy cd = true) : jsTruthy v = true := by
  cases v with
  | obj fs => rfl
  | arr es => rfl
  | num q => simp [jget] at h; rw [← h] at ht; simp [jsTruthy] at ht
  | nan => simp [jget] at h; rw [← h] at ht; simp [jsTruthy] at ht
  | str s => simp [jget] at h; rw [← h] at ht; simp [jsTruthy] at ht
  | bool b => simp [jget] at h; rw [← h] at ht; simp [jsTruthy] at ht
  | null => simp [jget] at h; rw [← h] at ht; simp [jsTruthy] at ht
  | undef => simp [jget] at h; rw [← h] at ht; simp [jsTruthy] at ht
  | date iso => simp [jget] at h; rw [← h] at ht; simp [jsTruthy] at ht
  | yearObj => simp [jget] at h; rw [← h] at ht; simp [jsTruthy] at ht

/-- Claim C6: for a stacked bar chart with an explicit chart definition
carrying a series field (string-valued dimension and series fields), the
builder produces one dataset per distinct series value, labels are the
distinct dimension values in first-occurrence order, and the i-th point of
the j-th dataset is the selected aggregation of the records whose dimension
value is the i-th distinct dimension value and whose series value is the
j-th distinct series value, with the literal value 0 when no record
matches the combination. -/
theorem C6_stacked_cross_product
    (config rd cd : JSVal) (records : List JSVal)
    (dark : Bool) (df sf : String) (mfv atv : JSVal)
    (dims sers : List String)
    (h1 : jsTruthy (jget rd "graphData") = false)
    (h2 : jsTruthy (jget rd "data") = false)
    (h3 : jsTruthy (jget rd "labels") = false)
    (hcd : jget rd "chartDefinition" = cd)
    (hcdt : jsTruthy cd = true)
    (h6 : jsTruthy (jget rd "multi_model") = false)
    (hrec : jget rd "records" = .arr records)
    (hne : records ≠ [])
    (hdf : jget cd "dimensionField" = .str df) (hdfne : df ≠ "")
    (hsf : jget cd "seriesField" = .str sf) (hsfne : sf ≠ "")
    (hmf : jget cd "measureField" = mfv)
    (hat : jsOrDefault (jget cd "aggregationType") (.str "count") = atv)
    (hstk : jsTruthy (jget config "stacked") = true)
    (hdims : records.map (fun r => jgetV r (.str df)) = dims.map JSVal.str)
    (hsers : records.map (fun r => jgetV r (.str sf)) = sers.map JSVal.str) :
    ∃ out,
      getChartData "bar" config (some rd) dark = .ok out
      ∧ jget out "labels" = .arr ((firstDedup dims).map JSVal.str)
      ∧ ∃ datasets, jget out "datasets" = .arr datasets
        ∧ datasets.length = (firstDedup sers).length
        ∧ ∀ j sv, (firstDedup sers).get? j = some sv →
            ∃ ds, datasets.get? j = some ds
              ∧ ∃ data, jget ds "data" = .arr data
              ∧ data.length = (firstDedup dims).length
              ∧ ∀ i dv, (firstDedup dims).get? i = some dv →
                  data.get? i = some (
                    match records.filter (fun r =>
                        strictEqStr (jgetV r (.str df)) dv
                        && strictEqStr (jgetV r (.str sf)) sv) with
                    | [] => JSVal.num 0
                    | ms => aggregateValues ms mfv atv) := by
  have htr : jsTruthy rd = true := jsTruthy_of_jget_truthy hcd hcdt
  have hres : resolveRecords rd = .ok (.arr records) := by
    simp only [resolveRecords, h6, hrec]
    simp [jsTruthy]
  have hdft : jsTruthy (jget cd "dimensionField") = true := by
    rw [hdf]; simp [jsTruthy, hdfne]
  have hsft : jsTruthy (jget cd "seriesField") = true := by
    rw [hsf]; simp [jsTruthy, hsfne]
  have hlen : jsLenGtZero (.arr records) = true := by
    simp [jsLenGtZero, List.length_pos, hne]
  have hcds : stepChartDef rd config "bar"
      = .ok (some (stackedFromDef records (.str df) (.str sf) mfv atv)) := by
    simp only [stepChartDef, hcd, hcdt, if_true, hres, hlen, hdft, Bool.and_self, hsft, hstk,
      Bool.true_and, Bool.and_true]
    rw [hdf, hsf, hmf, hat]
    simp
  have hstrs : ∀ r ∈ records, ∃ a b, jgetV r (.str df) = .str a ∧ jgetV r (.str sf) = .str b := by
    intro r hr
    have hm1 : jgetV r (.str df) ∈ dims.map JSVal.str := by
      rw [← hdims]; exact List.mem_map_of_mem _ hr
    have hm2 : jgetV r (.str sf) ∈ sers.map JSVal.str := by
      rw [← hsers]; exact List.mem_map_of_mem _ hr
    rcases List.mem_map.mp hm1 with ⟨a, _, ha⟩
    rcases List.mem_map.mp hm2 with ⟨b, _, hb⟩
    exact ⟨a, b, ha.symm, hb.symm⟩
  refine ⟨stackedFromDef records (.str df) (.str sf) mfv atv, ?_, ?_, ?_⟩
  · simp only [getChartData, htr, Bool.not_true, Bool.false_eq_true, if_false, jsOrDefault,
      h1, h2, if_false, h3]
    rw [if_neg (by simp [htr, h3])]
    show stepOr (stepChartDef rd config "bar") _ = _
    rw [hcds]
    rfl
  · simp only [stackedFromDef]
    rw [hdims, jsSetDedup_map_str]
    have hsl : ∀ s, stackedLabel (JSVal.str s) = JSVal.str s := fun s => rfl
    simp [jget, List.find?, List.map_map, Function.comp, hsl]
  · simp only [stackedFromDef]
    rw [hdims, hsers, jsSetDedup_map_str, jsSetDedup_map_str]
    refine ⟨_, rfl, ?_, ?_⟩
    · simp [mapWithIndex_length]
    · intro j sv hj
      have hjv : ((firstDedup sers).map JSVal.str).get? j = some (.str sv) := by
        rw [List.get?_map, hj]; rfl
      rw [mapWithIndex_get?, hjv]
      refine ⟨_, rfl, ?_⟩
      refine ⟨_, rfl, ?_, ?_⟩
      · simp
      · intro i dv hi
        rw [List.get?_map, List.get?_map, hi]
        simp only [Option.map_some']
        have hfil : records.filter (fun r =>
              jsLooseEq (jgetV r (.str df)) (.str dv) && jsLooseEq (jgetV r (.str sf)) (.str sv))
            = records.filter (fun r =>
              strictEqStr (jgetV r (.str df)) dv && strictEqStr (jgetV r (.str sf)) sv) := by
          apply List.filter_congr
          intro r hr
          rcases hstrs r hr with ⟨a, b, ha, hb⟩
          rw [ha, hb]
          rfl
        rw [hfil]
        cases hms : records.filter (fun r =>
            strictEqStr (jgetV r (.str df)) dv && strictEqStr (jgetV r (.str sf)) sv) with
        | nil => simp
        | cons m ms => simp

/-- The chart definition of Scenario B: region by product, counting. -/
def c6cd : JSVal := .obj [
  ("dimensionField", .str "region"),
  ("seriesField", .str "product"),
  ("measureField", .str "qty"),
  ("aggregationType", .str "count")]

/-- The records of Scenario B: regions A and B crossed with products X
and Y, with the combination B and Y missing. -/
def c6records : List JSVal := [
  .obj [("region", .str "A"), ("product", .str "X"), ("qty", .num 1)],
  .obj [("region", .str "A"), ("product", .str "Y"), ("qty", .num 2)],
  .obj [("region", .str "B"), ("product", .str "X"), ("qty", .num 3)]]

/-- The report data of Scenario B. -/
def c6rd : JSVal := .obj [("chartDefinition", c6cd), ("records", .arr c6records)]

/-- Witness for C6 at Scenario B of the specification. -/
theorem C6_witness :
    ∃ out,
      getChartData "bar" (.obj [("stacked", .bool true)]) (some c6rd) false = .ok out
      ∧ jget out "labels" = .arr ((firstDedup ["A", "A", "B"]).map JSVal.str)
      ∧ ∃ datasets, jget out "datasets" = .arr datasets
        ∧ datasets.length = (firstDedup ["X", "Y", "X"]).length
        ∧ ∀ j sv, (firstDedup ["X", "Y", "X"]).get? j = some sv →
            ∃ ds, datasets.get? j = some ds
              ∧ ∃ data, jget ds "data" = .arr data
              ∧ data.length = (firstDedup ["A", "A", "B"]).length
              ∧ ∀ i dv, (firstDedup ["A", "A", "B"]).get? i = some dv →
                  data.get? i = some (
                    match c6records.filter (fun r =>
                        strictEqStr (jgetV r (.str "region")) dv
                        && strictEqStr (jgetV r (.str "product")) sv) with
                    | [] => JSVal.num 0
                    | ms => aggregateValues ms (.str "qty") (.str "count")) :=
  C6_stacked_cross_product (.obj [("stacked", .bool true)]) c6rd c6cd c6records false
    "region" "product" (.str "qty") (.str "count") ["A", "A", "B"] ["X", "Y", "X"]
    rfl rfl rfl rfl rfl rfl rfl (List.cons_ne_nil _ _) rfl (by decide) rfl (by decide)
    rfl rfl rfl rfl rfl


/-- Claim C7 amended: for a multi-model payload without a precomputed
date aggregation whose primary model (the one with the most records, by
stable descending sort) has a date-shaped field in its first record, the
builder buckets the records whose normalised date value is truthy by the
date portion (time of day stripped), counts occurrences per bucket, sorts
the bucket keys ascending as strings, and emits a single dataset named
User Login Count when the resolved model name contains the text log, else
the model name followed by the word Count; the i-th data point is the
number of records whose normalised date prints as the i-th sorted key. -/
theorem C7_amended (vt : String) (config rd : JSVal) (dark : Bool)
    (models tl : List JSVal) (pm r0 : JSVal) (rtl : List JSVal) (df mname : String)
    (h1 : jsTruthy (jget rd "graphData") = false)
    (h2 : jsTruthy (jget rd "data") = false)
    (h3 : jsTruthy (jget rd "labels") = false)
    (h4 : jsTruthy (jget rd "chartDefinition") = false)
    (hld : jsTruthy (jget config "dimensionField") = false)
    (hagg : strictEqTrue (jget rd "aggregation") = false)
    (hm : jget rd "multi_model" = .bool true)
    (hresults : jget rd "results" = .arr models)
    (hmne : models ≠ [])
    (hnopre : ∀ m ∈ models, jsTruthy (jget m "_dateAggregation") = false)
    (hsort : insertionSortB (fun a b => Nat.ble (recCountOf b) (recCountOf a)) models = pm :: tl)
    (hpmrec : jget pm "records" = .arr (r0 :: rtl))
    (hdf : findDateField r0 = some df)
    (hr0 : jsTruthy (processDateValue (jget r0 df)) = true)
    (hname : jsOrDefault (jget pm "model_label") (jsOrDefault (jget pm "model") (.str ""))
      = .str mname) :
    ∃ out, ∃ dates : List String,
      getChartData vt config (some rd) dark = .ok out
      ∧ jget out "labels" = .arr (dates.map JSVal.str)
      ∧ dates.Pairwise (fun a b => strLe a b = true)
      ∧ (∀ k, k ∈ dates ↔ dateMatchCount (r0 :: rtl) df k ≠ 0)
      ∧ (∃ ds, jget out "datasets" = .arr [ds]
          ∧ jget ds "label" = .str (if jsIncludes mname "log" then "User Login Count"
              else mname ++ " Count")
          ∧ jget ds "data"
            = .arr (dates.map (fun k => JSVal.num (dateMatchCount (r0 :: rtl) df k)))) := by
  have htr : jsTruthy rd = true := jsTruthy_of_jget_truthy hm rfl
  have hlegoff : stepLegacy rd config vt = .ok none := by
    simp [stepLegacy, hld]
  have haggoff : stepAggregation rd vt = .ok none := by
    simp [stepAggregation, hagg]
  have hfindpre : models.find? (fun m => jsTruthy (jget m "_dateAggregation")) = none := by
    apply List.find?_eq_none.mpr
    intro m hmem
    simp [hnopre m hmem]
  have hmmne : models.isEmpty = false := by
    cases models with
    | nil => exact absurd rfl hmne
    | cons a t => rfl
  have hk0 : dateMatchCount (r0 :: rtl) df (jsString (processDateValue (jget r0 df))) ≠ 0 := by
    simp [dateMatchCount, List.filter_cons, hr0]
  have hmemdates : ∀ k, k ∈ insertionSortB strLe
      (jsObjectKeys ((dateBuckets (r0 :: rtl) df).map Prod.fst))
      ↔ dateMatchCount (r0 :: rtl) df k ≠ 0 := by
    intro k
    rw [mem_insertionSortB, mem_jsObjectKeys_iff, mem_dateBuckets_keys_iff]
  have hdne : (insertionSortB strLe
      (jsObjectKeys ((dateBuckets (r0 :: rtl) df).map Prod.fst))).isEmpty = false := by
    have hmem : jsString (processDateValue (jget r0 df)) ∈ insertionSortB strLe
        (jsObjectKeys ((dateBuckets (r0 :: rtl) df).map Prod.fst)) :=
      (hmemdates _).mpr hk0
    cases hdd : insertionSortB strLe (jsObjectKeys ((dateBuckets (r0 :: rtl) df).map Prod.fst)) with
    | nil => rw [hdd] at hmem; simp at hmem
    | cons a t => rfl
  have hmmstep : stepMultiModel rd vt dark = .ok (some (singleDatasetOut
      (.str (if jsIncludes mname "log" then "User Login Count" else mname ++ " Count"))
      (insertionSortB strLe (jsObjectKeys ((dateBuckets (r0 :: rtl) df).map Prod.fst)))
      (countsFor (insertionSortB strLe (jsObjectKeys ((dateBuckets (r0 :: rtl) df).map Prod.fst)))
        (dateBuckets (r0 :: rtl) df)) vt)) := by
    simp only [stepMultiModel, hm, hresults, hmmne, hfindpre, hsort, hpmrec, hdf, hdne, hname]
    simp [strictEqTrue, jsTruthy, jsLenGtZero]
  have hcf : countsFor (insertionSortB strLe
        (jsObjectKeys ((dateBuckets (r0 :: rtl) df).map Prod.fst)))
        (dateBuckets (r0 :: rtl) df)
      = (insertionSortB strLe (jsObjectKeys ((dateBuckets (r0 :: rtl) df).map Prod.fst))).map
          (fun k => JSVal.num (dateMatchCount (r0 :: rtl) df k)) := by
    apply List.map_congr_left
    intro k hk
    have hne0 : dateMatchCount (r0 :: rtl) df k ≠ 0 := (hmemdates k).mp hk
    rw [dateBuckets_lookup, if_neg hne0]
  refine ⟨singleDatasetOut
      (.str (if jsIncludes mname "log" then "User Login Count" else mname ++ " Count"))
      (insertionSortB strLe (jsObjectKeys ((dateBuckets (r0 :: rtl) df).map Prod.fst)))
      (countsFor (insertionSortB strLe (jsObjectKeys ((dateBuckets (r0 :: rtl) df).map Prod.fst)))
        (dateBuckets (r0 :: rtl) df)) vt,
    insertionSortB strLe (jsObjectKeys ((dateBuckets (r0 :: rtl) df).map Prod.fst)),
    ?_, ?_, ?_, ?_, ?_⟩
  · simp only [getChartData, htr, Bool.not_true, Bool.false_eq_true, if_false, jsOrDefault,
      h1, h2, if_false, h3]
    rw [if_neg (by simp [htr, h3])]
    rw [stepChartDef_off h4]
    show stepOr (.ok none) _ = _
    rw [show stepOr (Except.ok none) (stepOr (stepLegacy rd config vt)
        (stepOr (stepAggregation rd vt) (stepOr (stepMultiModel rd vt dark)
        (stepOr (stepPlainRecords rd vt) (.ok (getSampleData vt dark))))))
      = stepOr (stepLegacy rd config vt) (stepOr (stepAggregation rd vt)
        (stepOr (stepMultiModel rd vt dark) (stepOr (stepPlainRecords rd vt)
        (.ok (getSampleData vt dark))))) from rfl]
    rw [hlegoff]
    show stepOr (stepAggregation rd vt) _ = _
    rw [haggoff]
    show stepOr (stepMultiModel rd vt dark) _ = _
    rw [hmmstep]
    rfl
  · simp [singleDatasetOut, jget, List.find?]
  · exact pairwise_insertionSortB strLe_total strLe_trans _
  · exact hmemdates
  · refine ⟨.obj [
        ("label", .str (if jsIncludes mname "log" then "User Login Count"
            else mname ++ " Count")),
        ("data", .arr (countsFor (insertionSortB strLe
            (jsObjectKeys ((dateBuckets (r0 :: rtl) df).map Prod.fst)))
          (dateBuckets (r0 :: rtl) df))),
        ("backgroundColor", stdBackground vt (insertionSortB strLe
            (jsObjectKeys ((dateBuckets (r0 :: rtl) df).map Prod.fst))).length),
        ("borderColor", .str "rgba(75, 192, 192, 1)"),
        ("borderWidth", .num 1)], ?_, ?_, ?_⟩
    · simp [singleDatasetOut, jget, List.find?]
    · simp [singleDatasetOut, jget, List.find?]
    · simp only [singleDatasetOut, jget, List.find?]
      rw [hcf]
      simp [jget, List.find?]

/-- A multi-model payload whose primary model holds one dated and one
date-less record. -/
def c7rd : JSVal := .obj [
  ("multi_model", .bool true),
  ("results", .arr [ .obj [
    ("model", .str "res.users"),
    ("model_label", .str "Users"),
    ("records", .arr [
      .obj [("d", .str "2024-01-01 10:00:00")],
      .obj [("x", .num 1)]])]])]

/-- Claim C7 states the builder buckets ALL records of the primary model
by date.  Counterexample: of two records only the one carrying the date
field is bucketed; the record without a date value is skipped entirely, so
the single bucket counts 1 while the model holds 2 records. -/
theorem C7_counterexample :
    ∃ out, getChartData "bar" (.obj []) (some c7rd) false = .ok out
      ∧ jget out "labels" = .arr [.str "2024-01-01"]
      ∧ (∃ ds, jget out "datasets" = .arr [ds]
          ∧ jget ds "data" = .arr [.num ((1 : ℕ) : ℚ)])
      ∧ (([JSVal.obj [("d", .str "2024-01-01 10:00:00")], JSVal.obj [("x", .num 1)]].filter
            (fun r => jsTruthy (processDateValue (jget r "d")))).length = 1)
      ∧ ([JSVal.obj [("d", .str "2024-01-01 10:00:00")], JSVal.obj [("x", .num 1)]] :
          List JSVal).length = 2
      ∧ (1 : ℕ) ≠ 2 := by
  refine ⟨_, rfl, ?_⟩
  refine ⟨rfl, ⟨_, rfl, rfl⟩, rfl, rfl, by decide⟩

/-- A multi-model payload for the C7 witness: a model named logins with
three timestamped records over two distinct days. -/
def c7wrd : JSVal := .obj [
  ("multi_model", .bool true),
  ("results", .arr [ .obj [
    ("model_label", .str "logins"),
    ("records", .arr [
      .obj [("create_date", .str "2024-01-02 10:00:00")],
      .obj [("create_date", .str "2024-01-01 09:30:00")],
      .obj [("create_date", .str "2024-01-02 23:59:59")]])]])]

/-- Witness for C7 amended: three login records over two days give two
ascending date buckets with counts 1 and 2 under the name
User Login Count. -/
theorem C7_amended_witness :
    ∃ out, ∃ dates : List String,
      getChartData "bar" (.obj []) (some c7wrd) false = .ok out
      ∧ jget out "labels" = .arr (dates.map JSVal.str)
      ∧ dates.Pairwise (fun a b => strLe a b = true)
      ∧ (∀ k, k ∈ dates ↔ dateMatchCount
          [.obj [("create_date", .str "2024-01-02 10:00:00")],
           .obj [("create_date", .str "2024-01-01 09:30:00")],
           .obj [("create_date", .str "2024-01-02 23:59:59")]] "create_date" k ≠ 0)
      ∧ (∃ ds, jget out "datasets" = .arr [ds]
          ∧ jget ds "label" = .str (if jsIncludes "logins" "log" then "User Login Count"
              else "logins" ++ " Count")
          ∧ jget ds "data"
            = .arr (dates.map (fun k => JSVal.num (dateMatchCount
                [.obj [("create_date", .str "2024-01-02 10:00:00")],
                 .obj [("create_date", .str "2024-01-01 09:30:00")],
                 .obj [("create_date", .str "2024-01-02 23:59:59")]] "create_date" k)))) :=
  C7_amended "bar" (.obj []) c7wrd false
    [.obj [
      ("model_label", .str "logins"),
      ("records", .arr [
        .obj [("create_date", .str "2024-01-02 10:00:00")],
        .obj [("create_date", .str "2024-01-01 09:30:00")],
        .obj [("create_date", .str "2024-01-02 23:59:59")]])]] []
    (.obj [
      ("model_label", .str "logins"),
      ("records", .arr [
        .obj [("create_date", .str "2024-01-02 10:00:00")],
        .obj [("create_date", .str "2024-01-01 09:30:00")],
        .obj [("create_date", .str "2024-01-02 23:59:59")]])])
    (.obj [("create_date", .str "2024-01-02 10:00:00")])
    [.obj [("create_date", .str "2024-01-01 09:30:00")],
     .obj [("create_date", .str "2024-01-02 23:59:59")]]
    "create_date" "logins"
    rfl rfl rfl rfl rfl rfl rfl rfl (List.cons_ne_nil _ _)
    (by intro m hmem; simp only [List.mem_singleton] at hmem; subst hmem; rfl)
    rfl rfl rfl rfl rfl
